import Mathlib

/-!
# tennis-tracker: the authentication layer

A shallow embedding of `backend/internal/middleware/auth.go`,
`backend/internal/api/utils.go`, the handlers `Register` and `Login` of
`backend/internal/api/auth.go` and the `User` type of
`backend/internal/models/user.go`, together with the parts of the Go standard
library (`net/http`, `context`, `strings`, `os`, `time`, `encoding/json`), of
`github.com/golang-jwt/jwt/v4` and of `golang.org/x/crypto/bcrypt` that those
files call.

Conventions.

* A Go `error` is an `Option String`: `none` is `nil`, `some s` is an error
  whose `Error()` text is `s`.
* A Go `(T, error)` result is a pair `T × Option String`.
* Go `int` and `int64` values are `Int`; the programs only compare them and add
  the constant `86400` to a clock reading.
* `time.Now()` is a clock `Nat → Int`: within one call of a function the
  `k`-th evaluation of `time.Now()` yields the Unix second `clock k`.
* `os.Getenv` reads an environment `String → Option String`.
-/

set_option autoImplicit false

deriving instance DecidableEq for Except

namespace TennisTracker

/-! ## Standard library: `os`, `strings`, `context`, `net/http` -/

namespace os

/-- Process environment: a variable is unset (`none`) or set to a value. -/
abbrev Environ := String → Option String

/-- Go `os.Getenv`: the value of the variable, or the empty string when unset. -/
def Getenv (env : Environ) (key : String) : String :=
  match env key with
  | some v => v
  | none => ""

end os

namespace strings

/-- Pieces of a character list between the occurrences of a one-character separator. -/
def splitChars (sep : Char) : List Char → List (List Char)
  | [] => [[]]
  | c :: cs =>
    if c = sep then [] :: splitChars sep cs
    else
      match splitChars sep cs with
      | [] => [[c]]
      | p :: ps => (c :: p) :: ps

/-- Go `strings.Split(s, sep)` for a separator of one character: every
occurrence of the separator ends a piece, so `n` occurrences give `n + 1` pieces. -/
def Split (s : String) (sep : Char) : List String :=
  (splitChars sep s.data).map String.mk

end strings

/-- Dynamically typed Go values (`interface{}`) that occur as context keys and values. -/
inductive GoValue where
  | int (n : Int)
  | string (s : String)
  | contextKey (s : String)
  deriving DecidableEq, Repr

namespace context

/-- Go `context.Context` as the chain of `WithValue` bindings, innermost first. -/
abbrev Context := List (GoValue × GoValue)

/-- Go `context.Background()`. -/
def Background : Context := []

/-- Go `context.WithValue(parent, key, val)`. -/
def WithValue (parent : Context) (key val : GoValue) : Context :=
  (key, val) :: parent

/-- Go `ctx.Value(key)`: the innermost binding of an equal key, `none` for `nil`. -/
def Value : Context → GoValue → Option GoValue
  | [], _ => none
  | (k, v) :: rest, key => if k = key then some v else Value rest key

end context

namespace http

/-- Status code `http.StatusUnauthorized`. -/
def StatusUnauthorized : Nat := 401

/-- Status code `http.StatusInternalServerError`. -/
def StatusInternalServerError : Nat := 500

/-- Go `http.Header` with canonical keys. -/
abbrev Header := List (String × List String)

/-- Go `Header.Get`: the first value stored under the key, or the empty string. -/
def Header.Get : Header → String → String
  | [], _ => ""
  | (k, vs) :: rest, key =>
    if k = key then
      match vs with
      | [] => ""
      | v :: _ => v
    else Header.Get rest key

/-- Go `Header.Set`: replaces the values stored under the key by one value. -/
def Header.Set (h : Header) (key value : String) : Header :=
  (key, [value]) :: h.filter (fun kv => kv.1 ≠ key)

/-- Go `*http.Request`, reduced to the parts the authentication layer reads. -/
structure Request where
  Header : Header
  ctx : context.Context
  deriving DecidableEq, Repr

/-- Go `r.Context()`. -/
def Request.Context (r : Request) : context.Context := r.ctx

/-- Go `r.WithContext(ctx)`. -/
def Request.WithContext (r : Request) (ctx : context.Context) : Request :=
  { r with ctx := ctx }

/-- Recorded `http.ResponseWriter`: response headers, the status code once
`WriteHeader` has run, and the bytes written so far. -/
structure ResponseWriter where
  header : Header
  status : Option Nat
  body : String
  deriving DecidableEq, Repr

/-- Go `w.Header().Set(key, value)`. -/
def ResponseWriter.SetHeader (w : ResponseWriter) (key value : String) : ResponseWriter :=
  { w with header := Header.Set w.header key value }

/-- Go `w.WriteHeader(code)`: only the first call fixes the status code. -/
def ResponseWriter.WriteHeader (w : ResponseWriter) (code : Nat) : ResponseWriter :=
  match w.status with
  | some _ => w
  | none => { w with status := some code }

/-- Go `w.Write(b)`: writes status 200 first when no status was written. -/
def ResponseWriter.Write (w : ResponseWriter) (b : String) : ResponseWriter :=
  let w1 := w.WriteHeader 200
  { w1 with body := w1.body ++ b }

/-- Go `http.Error(w, error, code)`: plain-text content type, the status code,
then the message followed by a newline. The removal of `Content-Length` and
similar headers that recent Go releases add is left out. -/
def Error (w : ResponseWriter) (error : String) (code : Nat) : ResponseWriter :=
  let w1 := w.SetHeader "Content-Type" "text/plain; charset=utf-8"
  let w2 := w1.SetHeader "X-Content-Type-Options" "nosniff"
  let w3 := w2.WriteHeader code
  w3.Write (error ++ "\n")

/-- Go `http.Handler`: the effect of `ServeHTTP(w, r)` on the response. -/
abbrev Handler := ResponseWriter → Request → ResponseWriter

end http

/-! ## The external dependency `github.com/golang-jwt/jwt/v4`

The library is not part of the repository. Its wire codec (base64url, JSON,
HMAC) is a parameter, `jwt.Lib`; the control flow of `ParseWithClaims`,
`StandardClaims.Valid` and `SignedString` is written out over that parameter. -/

namespace jwt

/-- Go `jwt.StandardClaims`: the registered claims, `0` and `""` meaning absent. -/
structure StandardClaims where
  Audience : String
  ExpiresAt : Int
  Id : String
  IssuedAt : Int
  Issuer : String
  NotBefore : Int
  Subject : String
  deriving DecidableEq, Repr

/-- Signing methods registered by the library, by concrete Go type. -/
inductive SigningMethod where
  | HMAC (alg : String)
  | RSA (alg : String)
  | RSAPSS (alg : String)
  | ECDSA (alg : String)
  | Ed25519
  | none
  deriving DecidableEq, Repr

/-- Go `method.Alg()`. -/
def SigningMethod.Alg : SigningMethod → String
  | .HMAC a => a
  | .RSA a => a
  | .RSAPSS a => a
  | .ECDSA a => a
  | .Ed25519 => "EdDSA"
  | .none => "none"

/-- Go type assertion `method.(*jwt.SigningMethodHMAC)`. -/
def SigningMethod.isHMAC : SigningMethod → Bool
  | .HMAC _ => true
  | _ => false

/-- Go `jwt.SigningMethodHS256`. -/
def SigningMethodHS256 : SigningMethod := .HMAC "HS256"

/-- Go `jwt.GetSigningMethod(alg)`: the registered method of that name, if any. -/
def GetSigningMethod (alg : String) : Option SigningMethod :=
  if alg = "HS256" ∨ alg = "HS384" ∨ alg = "HS512" then some (.HMAC alg)
  else if alg = "RS256" ∨ alg = "RS384" ∨ alg = "RS512" then some (.RSA alg)
  else if alg = "PS256" ∨ alg = "PS384" ∨ alg = "PS512" then some (.RSAPSS alg)
  else if alg = "ES256" ∨ alg = "ES384" ∨ alg = "ES512" then some (.ECDSA alg)
  else if alg = "EdDSA" then some .Ed25519
  else if alg = "none" then some .none
  else Option.none

/-- Validation failures collected by the library (the bits of `ValidationError.Errors`). -/
inductive ErrorFlag where
  | Malformed
  | Unverifiable
  | SignatureInvalid
  | Expired
  | IssuedAt
  | NotValidYet
  deriving DecidableEq, Repr

/-- Go `jwt.ValidationError`. -/
structure ValidationError where
  Inner : Option String
  Errors : List ErrorFlag
  deriving DecidableEq, Repr

/-- Go `ValidationError.Error()`. -/
def ValidationError.Error (e : ValidationError) : String :=
  match e.Inner with
  | some s => s
  | Option.none => "token is invalid"

/-- Go `ValidationError.valid()`: no failure was recorded. -/
def ValidationError.valid (e : ValidationError) : Bool := e.Errors.isEmpty

end jwt

namespace middleware

/-- Go `middleware.Claims`: the subject identifier and the embedded registered claims. -/
structure Claims where
  UserID : Int
  StandardClaims : jwt.StandardClaims
  deriving DecidableEq, Repr

end middleware

namespace jwt

/-- What decoding a three-segment token string yields: the `alg` entry of the
header when it is a string, the claims, the signed text `parts[0] + "." + parts[1]`
and the signature segment `parts[2]`. -/
structure Segments where
  alg : Option String
  claims : middleware.Claims
  signingInput : String
  signature : String
  deriving DecidableEq, Repr

/-- The parts of the library that are taken as given.

* `decode` splits a token string and decodes header and claims; its error is
  the text of the library's malformed-token error.
* `signingString alg claims` is the encoded header and claims of a new token.
* `sign` and `verify` are `SigningMethod.Sign` and `SigningMethod.Verify` for a
  byte-string key; `verify` returns `none` when the signature verifies.
* `strictExp` selects the expiry comparison of the release in use: `now < exp`
  when `true` (time-based comparison), `now ≤ exp` when `false`.
* `durationString` is `time.Duration.String` on a number of seconds. -/
structure Lib where
  decode : String → Except String Segments
  signingString : String → middleware.Claims → String
  sign : SigningMethod → String → String → Except String String
  verify : SigningMethod → String → String → String → Option String
  strictExp : Bool
  durationString : Int → String

/-- Go `jwt.Token` after parsing. -/
structure Token where
  Method : SigningMethod
  alg : String
  Claims : middleware.Claims
  Signature : String
  Valid : Bool
  deriving DecidableEq, Repr

/-- Library check `verifyExp` with `required = false`: an absent (`0`) expiry passes. -/
def VerifyExpiresAt (lib : Lib) (c : StandardClaims) (cmp : Int) : Bool :=
  if c.ExpiresAt = 0 then true
  else if lib.strictExp then decide (cmp < c.ExpiresAt) else decide (cmp ≤ c.ExpiresAt)

/-- Library check `verifyIat` with `required = false`. -/
def VerifyIssuedAt (c : StandardClaims) (cmp : Int) : Bool :=
  if c.IssuedAt = 0 then true else decide (c.IssuedAt ≤ cmp)

/-- Library check `verifyNbf` with `required = false`. -/
def VerifyNotBefore (c : StandardClaims) (cmp : Int) : Bool :=
  if c.NotBefore = 0 then true else decide (c.NotBefore ≤ cmp)

/-- Go `StandardClaims.Valid()` at clock reading `now`: the three time checks
in order, each failure replacing the inner error and adding its flag. -/
def StandardClaims.Valid (lib : Lib) (now : Int) (c : StandardClaims) : ValidationError :=
  let v0 : ValidationError := { Inner := Option.none, Errors := [] }
  let v1 : ValidationError :=
    if VerifyExpiresAt lib c now then v0
    else { Inner := some ("token is expired by " ++ lib.durationString (now - c.ExpiresAt)),
           Errors := ErrorFlag.Expired :: v0.Errors }
  let v2 : ValidationError :=
    if VerifyIssuedAt c now then v1
    else { Inner := some "token used before issued", Errors := ErrorFlag.IssuedAt :: v1.Errors }
  if VerifyNotBefore c now then v2
  else { Inner := some "token is not valid yet", Errors := ErrorFlag.NotValidYet :: v2.Errors }

/-- The signature step of `ParseWithClaims`: a verification error replaces the
inner error and adds the signature flag to what claim validation collected. -/
def ValidationError.withSignature (vErr : ValidationError) (verified : Option String) :
    ValidationError :=
  match verified with
  | some e => { Inner := some e, Errors := ErrorFlag.SignatureInvalid :: vErr.Errors }
  | Option.none => vErr

/-- Go `Parser.ParseUnverified`: decodes the segments and looks the signing
method up by the header's `alg`; returns the token and the signed text. -/
def ParseUnverified (lib : Lib) (tokenString : String) : Except String (Token × String) :=
  match lib.decode tokenString with
  | .error e => .error e
  | .ok seg =>
    match seg.alg with
    | Option.none => .error "signing method (alg) is unspecified."
    | some headerAlg =>
      match GetSigningMethod headerAlg with
      | Option.none => .error "signing method (alg) is unavailable."
      | some m =>
        .ok ({ Method := m, alg := headerAlg, Claims := seg.claims,
               Signature := seg.signature, Valid := false }, seg.signingInput)

/-- Go `jwt.ParseWithClaims(tokenString, &Claims{}, keyFunc)` with the library
clock reading `now`: parse, ask `keyFunc` for the key, validate the claims,
verify the signature; the token is returned with `Valid = true` when nothing
failed, otherwise the error text of the collected `ValidationError`. -/
def ParseWithClaims (lib : Lib) (now : Int) (tokenString : String)
    (keyFunc : Token → Except String String) : Except String Token :=
  match ParseUnverified lib tokenString with
  | .error e => .error e
  | .ok (token, signingInput) =>
    match keyFunc token with
    | .error e => .error e
    | .ok key =>
      let vErr := StandardClaims.Valid lib now token.Claims.StandardClaims
      let vErr2 := vErr.withSignature (lib.verify token.Method signingInput token.Signature key)
      if vErr2.valid then .ok { token with Valid := true }
      else .error vErr2.Error

/-- Go `jwt.NewWithClaims(method, claims).SignedString(key)`. -/
def SignedString (lib : Lib) (method : SigningMethod) (claims : middleware.Claims)
    (key : String) : Except String String :=
  let sstr := lib.signingString method.Alg claims
  match lib.sign method sstr key with
  | .error e => .error e
  | .ok sig => .ok (sstr ++ "." ++ sig)

end jwt

/-! ## `backend/internal/middleware/auth.go` -/

namespace middleware

/-- Go `UserIDKey`: the constant `contextKey("userID")`. -/
def UserIDKey : GoValue := .contextKey "userID"

/-- The signing key both functions compute: `JWT_SECRET`, or the development
default when the variable is unset or empty. -/
def secretKey (env : os.Environ) : String :=
  if os.Getenv env "JWT_SECRET" = "" then "your-default-secret-key-for-development"
  else os.Getenv env "JWT_SECRET"

/-- The key function `validateToken` passes to the parser: the secret for an
HMAC method, an error naming the header's `alg` for every other method. -/
def keyFunc (secret : String) (token : jwt.Token) : Except String String :=
  if token.Method.isHMAC then .ok secret
  else .error ("unexpected signing method: " ++ token.alg)

/-- Go `validateToken(tokenStr)`. The library reads the clock first (`clock 0`),
the function's own expiry check reads it again (`clock 1`). -/
def validateToken (lib : jwt.Lib) (env : os.Environ) (clock : Nat → Int)
    (tokenStr : String) : Int × Option String :=
  let secret := secretKey env
  match jwt.ParseWithClaims lib (clock 0) tokenStr (keyFunc secret) with
  | .error err => (0, some err)
  | .ok token =>
    if token.Valid then
      if token.Claims.StandardClaims.ExpiresAt < clock 1 then (0, some "token expired")
      else (token.Claims.UserID, none)
    else (0, some "invalid token")

/-- The claims literal of `GenerateToken`: expiry from the first clock reading
plus 24 hours, issued-at from the second clock reading. -/
def newClaims (clock : Nat → Int) (userID : Int) : Claims :=
  let expirationTime := clock 0 + 24 * 3600
  { UserID := userID,
    StandardClaims :=
      { Audience := "", ExpiresAt := expirationTime, Id := "", IssuedAt := clock 1,
        Issuer := "tennis-tracker", NotBefore := 0, Subject := "" } }

/-- Go `GenerateToken(userID)`. -/
def GenerateToken (lib : jwt.Lib) (env : os.Environ) (clock : Nat → Int)
    (userID : Int) : String × Option String :=
  let secret := secretKey env
  let claims := newClaims clock userID
  match jwt.SignedString lib jwt.SigningMethodHS256 claims secret with
  | .error err => ("", some err)
  | .ok tokenString => (tokenString, none)

/-- Go `GetUserID(r)`: the value under `UserIDKey`, asserted to be an `int`. -/
def GetUserID (r : http.Request) : Int × Option String :=
  match context.Value r.Context UserIDKey with
  | some (.int userID) => (userID, none)
  | _ => (0, some "user ID not found in context")

/-- Calls that `Authenticate` makes while serving one request, in order. -/
inductive Call where
  | validateToken (tokenStr : String)
  | next (r : http.Request)
  deriving DecidableEq, Repr

/-- Go `Authenticate(next)` serving request `r` on writer `w`: the resulting
response together with the calls made to `validateToken` and to `next`. -/
def Authenticate (lib : jwt.Lib) (env : os.Environ) (clock : Nat → Int)
    (next : http.Handler) (w : http.ResponseWriter) (r : http.Request) :
    http.ResponseWriter × List Call :=
  let authHeader := http.Header.Get r.Header "Authorization"
  if authHeader = "" then
    (http.Error w "Authorization header is required" http.StatusUnauthorized, [])
  else
    match strings.Split authHeader (Char.ofNat 32) with
    | [scheme, tokenStr] =>
      if scheme ≠ "Bearer" then
        (http.Error w "Authorization header format must be \x27Bearer \x7btoken\x7d\x27"
          http.StatusUnauthorized, [])
      else
        match validateToken lib env clock tokenStr with
        | (_, some err) =>
          (http.Error w ("Invalid token: " ++ err) http.StatusUnauthorized,
            [Call.validateToken tokenStr])
        | (userID, none) =>
          let ctx := context.WithValue r.Context UserIDKey (.int userID)
          (next w (r.WithContext ctx),
            [Call.validateToken tokenStr, Call.next (r.WithContext ctx)])
    | _ =>
      (http.Error w "Authorization header format must be \x27Bearer \x7btoken\x7d\x27"
        http.StatusUnauthorized, [])

end middleware

/-! ## `backend/internal/api/utils.go` -/

namespace api

/-- Go `ErrorResponse`. -/
structure ErrorResponse where
  Error : String
  deriving DecidableEq, Repr

/-- Go `json.Marshal(ErrorResponse{...})`: one member named `error`; `quote`
is the JSON string encoding of `encoding/json`. Marshalling a struct with one
string field cannot fail. -/
def marshalErrorResponse (quote : String → String) (p : ErrorResponse) : Except String String :=
  .ok ("\x7b\"error\":" ++ quote p.Error ++ "\x7d")

/-- Go `RespondWithJSON(w, code, payload)`, on the result of `json.Marshal(payload)`. -/
def RespondWithJSON (w : http.ResponseWriter) (code : Nat) (marshalled : Except String String) :
    http.ResponseWriter :=
  match marshalled with
  | .error _ =>
    let w1 := w.SetHeader "Content-Type" "application/json"
    let w2 := w1.WriteHeader http.StatusInternalServerError
    w2.Write "\x7b\"error\":\"Failed to marshal JSON response\"\x7d"
  | .ok response =>
    let w1 := w.SetHeader "Content-Type" "application/json"
    let w2 := w1.WriteHeader code
    w2.Write response

/-- Go `RespondWithError(w, code, message)`. -/
def RespondWithError (quote : String → String) (w : http.ResponseWriter) (code : Nat)
    (message : String) : http.ResponseWriter :=
  RespondWithJSON w code (marshalErrorResponse quote { Error := message })

end api

/-! ## `backend/internal/models/user.go` -/

namespace time

/-- Go `time.Time`: the zero value, or the instant at a Unix second. -/
inductive Time where
  | zero
  | unix (sec : Int)
  deriving DecidableEq, Repr

end time

namespace models

/-- Go `models.User`; the JSON tags are rendered by `api.marshalUser`. -/
structure User where
  ID : Int
  Name : String
  Email : String
  PasswordHash : String
  CreatedAt : time.Time
  UpdatedAt : time.Time
  deriving DecidableEq, Repr

end models

/-! ## `backend/internal/api/auth.go` -/

/-- Status code `http.StatusOK`. -/
def http.StatusOK : Nat := 200

/-- Status code `http.StatusCreated`. -/
def http.StatusCreated : Nat := 201

/-- Status code `http.StatusBadRequest`. -/
def http.StatusBadRequest : Nat := 400

/-- Go `bcrypt.DefaultCost`. -/
def bcrypt.DefaultCost : Nat := 10

namespace api

/-- Go `LoginRequest`. -/
structure LoginRequest where
  Email : String
  Password : String
  deriving DecidableEq, Repr

/-- Go `RegisterRequest`. -/
structure RegisterRequest where
  Name : String
  Email : String
  Password : String
  deriving DecidableEq, Repr

/-- Go `AuthResponse`. -/
structure AuthResponse where
  Token : String
  User : models.User
  deriving DecidableEq, Repr

/-- The functions of `encoding/json`, `time` and `golang.org/x/crypto/bcrypt`
that the handlers call, taken as given.

* `decodeRegister` and `decodeLogin` are `json.NewDecoder(r.Body).Decode(&req)`
  on the content of the request body.
* `GenerateFromPassword password cost` and `CompareHashAndPassword hash password`
  are the bcrypt functions; the latter returns `none` when the password matches.
* `quote` is the JSON encoding of a string.
* `formatUnix` is the JSON encoding of a `time.Time` other than the zero value. -/
structure Deps where
  decodeRegister : String → Except String RegisterRequest
  decodeLogin : String → Except String LoginRequest
  GenerateFromPassword : String → Nat → Except String String
  CompareHashAndPassword : String → String → Option String
  quote : String → String
  formatUnix : Int → Except String String

/-- Go `time.Time.MarshalJSON`: the zero value is the first instant of year 1. -/
def marshalTime (d : Deps) : time.Time → Except String String
  | .zero => .ok "\"0001-01-01T00:00:00Z\""
  | .unix sec => d.formatUnix sec

/-- Go `json.Marshal(models.User{...})`: the members `id`, `name`, `email`,
`created_at`, `updated_at` in field order; `PasswordHash` is tagged `json:"-"`
and is left out. -/
def marshalUser (d : Deps) (u : models.User) : Except String String :=
  match marshalTime d u.CreatedAt with
  | .error e => .error e
  | .ok created =>
    match marshalTime d u.UpdatedAt with
    | .error e => .error e
    | .ok updated =>
      .ok ("\x7b\"id\":" ++ toString u.ID ++ ",\"name\":" ++ d.quote u.Name ++
        ",\"email\":" ++ d.quote u.Email ++ ",\"created_at\":" ++ created ++
        ",\"updated_at\":" ++ updated ++ "\x7d")

/-- Go `json.Marshal(AuthResponse{...})`: the members `token` and `user`. -/
def marshalAuthResponse (d : Deps) (a : AuthResponse) : Except String String :=
  match marshalUser d a.User with
  | .error e => .error e
  | .ok user => .ok ("\x7b\"token\":" ++ d.quote a.Token ++ ",\"user\":" ++ user ++ "\x7d")

/-- Calls that a handler makes to bcrypt and to the token codec, in order. -/
inductive Call where
  | GenerateFromPassword (password : String)
  | CompareHashAndPassword (hash password : String)
  | GenerateToken (userID : Int)
  deriving DecidableEq, Repr

/-- Go `Register(w, r)`, with `body` the content of `r.Body`: the response
together with the calls made to bcrypt and to `middleware.GenerateToken`. -/
def Register (d : Deps) (lib : jwt.Lib) (env : os.Environ) (clock : Nat → Int)
    (w : http.ResponseWriter) (body : String) : http.ResponseWriter × List Call :=
  match d.decodeRegister body with
  | .error _ =>
    (RespondWithError d.quote w http.StatusBadRequest "Invalid request payload", [])
  | .ok req =>
    if req.Email = "" ∨ req.Password = "" then
      (RespondWithError d.quote w http.StatusBadRequest "Email and password are required", [])
    else
      match d.GenerateFromPassword req.Password bcrypt.DefaultCost with
      | .error _ =>
        (RespondWithError d.quote w http.StatusInternalServerError "Failed to hash password",
          [Call.GenerateFromPassword req.Password])
      | .ok hashedPassword =>
        let user : models.User :=
          { ID := 0, Name := req.Name, Email := req.Email, PasswordHash := hashedPassword,
            CreatedAt := time.Time.zero, UpdatedAt := time.Time.zero }
        match middleware.GenerateToken lib env clock user.ID with
        | (_, some _) =>
          (RespondWithError d.quote w http.StatusInternalServerError "Failed to generate token",
            [Call.GenerateFromPassword req.Password, Call.GenerateToken user.ID])
        | (token, none) =>
          (RespondWithJSON w http.StatusCreated
              (marshalAuthResponse d { Token := token, User := user }),
            [Call.GenerateFromPassword req.Password, Call.GenerateToken user.ID])

/-- The stored hash of the simulated user in `Login`. -/
def simulatedHash : String := "$2a$10$GckdTPS05LnUmMSxH4g4peVKqEoR8h1WUSLfFrS0WkpLcKTVQSfQq"

/-- Go `Login(w, r)`, with `body` the content of `r.Body`: the response
together with the calls made to bcrypt and to `middleware.GenerateToken`. -/
def Login (d : Deps) (lib : jwt.Lib) (env : os.Environ) (clock : Nat → Int)
    (w : http.ResponseWriter) (body : String) : http.ResponseWriter × List Call :=
  match d.decodeLogin body with
  | .error _ =>
    (RespondWithError d.quote w http.StatusBadRequest "Invalid request payload", [])
  | .ok req =>
    if req.Email = "" ∨ req.Password = "" then
      (RespondWithError d.quote w http.StatusBadRequest "Email and password are required", [])
    else
      let user : models.User :=
        { ID := 1, Name := "Test User", Email := req.Email, PasswordHash := simulatedHash,
          CreatedAt := time.Time.zero, UpdatedAt := time.Time.zero }
      match d.CompareHashAndPassword user.PasswordHash req.Password with
      | some _ =>
        (RespondWithError d.quote w http.StatusUnauthorized "Invalid email or password",
          [Call.CompareHashAndPassword user.PasswordHash req.Password])
      | none =>
        match middleware.GenerateToken lib env clock user.ID with
        | (_, some _) =>
          (RespondWithError d.quote w http.StatusInternalServerError "Failed to generate token",
            [Call.CompareHashAndPassword user.PasswordHash req.Password,
              Call.GenerateToken user.ID])
        | (token, none) =>
          (RespondWithJSON w http.StatusOK
              (marshalAuthResponse d { Token := token, User := user }),
            [Call.CompareHashAndPassword user.PasswordHash req.Password,
              Call.GenerateToken user.ID])

end api

/-! ## A small stand-in codec

Concrete instances of `jwt.Lib` for evaluating the functions on explicit
tokens. A token is `alg.name.signature`: the header segment is the algorithm
name, the claims segment is a name from a finite table of claim sets, and the
signature of a signed text under a key is the key followed by the signed text
without its dots. -/

namespace fixture

/-- Claim set with the given subject and registered time claims, nothing else set. -/
def claimsOf (userID exp iat nbf : Int) : middleware.Claims :=
  { UserID := userID,
    StandardClaims :=
      { Audience := "", ExpiresAt := exp, Id := "", IssuedAt := iat,
        Issuer := "tennis-tracker", NotBefore := nbf, Subject := "" } }

/-- The claim sets the stand-in codec can encode, by segment name. -/
def table : List (String × middleware.Claims) :=
  [ ("issued7", claimsOf 7 87400 1000 0),
    ("ticked7", claimsOf 7 87400 1001 0),
    ("early", claimsOf 7 5000 900 2000),
    ("noexp", claimsOf 7 0 0 0),
    ("old", claimsOf 7 50 0 0) ]

/-- Segment name of a claim set. -/
def nameOf (c : middleware.Claims) : String :=
  match table.find? (fun e => e.2 = c) with
  | some e => e.1
  | none => "unknown"

/-- Claim set of a segment name. -/
def claimsNamed (n : String) : Option middleware.Claims :=
  match table.find? (fun e => e.1 = n) with
  | some e => some e.2
  | none => none

/-- Stand-in message authentication code. -/
def mac (signingInput key : String) : String :=
  key ++ ":" ++ String.mk (signingInput.data.filter (fun c => c ≠ Char.ofNat 46))

/-- Stand-in for the token decoder. -/
def decode (tokenString : String) : Except String jwt.Segments :=
  match strings.Split tokenString (Char.ofNat 46) with
  | [h, c, sig] =>
    match claimsNamed c with
    | some cl =>
      .ok { alg := some h, claims := cl, signingInput := h ++ "." ++ c, signature := sig }
    | none => .error "invalid character in claims segment"
  | _ => .error "token contains an invalid number of segments"

/-- Stand-in for signature verification: only HMAC methods verify anything. -/
def verify (m : jwt.SigningMethod) (signingInput signature key : String) : Option String :=
  if m.isHMAC then
    if signature = mac signingInput key then none else some "signature is invalid"
  else some "key is of invalid type"

/-- Stand-in library; the flag chooses the expiry comparison. -/
def lib (strictExp : Bool) : jwt.Lib :=
  { decode := decode,
    signingString := fun alg c => alg ++ "." ++ nameOf c,
    sign := fun _ signingInput key => .ok (mac signingInput key),
    verify := verify,
    strictExp := strictExp,
    durationString := fun _ => "a while" }

/-- Environment in which `JWT_SECRET` is unset. -/
def noEnv : os.Environ := fun _ => none

/-- Environment in which `JWT_SECRET` is `k1`. -/
def keyEnv : os.Environ := fun k => if k = "JWT_SECRET" then some "k1" else none

/-- A clock that stands still at `t`. -/
def still (t : Int) : Nat → Int := fun _ => t

/-- A clock that advances by one second with every reading, from `t`. -/
def ticking (t : Int) : Nat → Int := fun k => t + k

/-- Request carrying one `Authorization` header and an empty context. -/
def requestWith (authorization : String) : http.Request :=
  { Header := [("Authorization", [authorization])], ctx := context.Background }

/-- Request without headers. -/
def bareRequest : http.Request := { Header := [], ctx := context.Background }

/-- A writer on which nothing has been written. -/
def freshWriter : http.ResponseWriter := { header := [], status := none, body := "" }

/-- Handler that answers `200` with body `ok`. -/
def okHandler : http.Handler := fun w _ => (w.WriteHeader 200).Write "ok"

end fixture

/-! ## Stand-ins for the request decoder and bcrypt

A decoder that recognises a few request bodies, a hash that wraps the password,
a password check that accepts only `password` (what the comment beside the
hard-coded hash in `Login` says that hash stands for; the theorems take the
bcrypt check as a parameter and do not depend on this choice), and a string
encoding that puts the text in double quotes. -/

namespace fixture

/-- Body of the registration example: name `A`, email `a@x.com`, password `secret123`. -/
def registerBody : String :=
  "\x7b\"name\":\"A\",\"email\":\"a@x.com\",\"password\":\"secret123\"\x7d"

/-- Registration body without an email. -/
def registerNoEmail : String := "\x7b\"name\":\"A\",\"password\":\"secret123\"\x7d"

/-- Login body for `a@x.com` with the password `password`. -/
def loginA : String := "\x7b\"email\":\"a@x.com\",\"password\":\"password\"\x7d"

/-- Login body for `b@x.com` with the password `password`. -/
def loginB : String := "\x7b\"email\":\"b@x.com\",\"password\":\"password\"\x7d"

/-- Login body for `a@x.com` with the password `wrong`. -/
def loginWrong : String := "\x7b\"email\":\"a@x.com\",\"password\":\"wrong\"\x7d"

/-- Stand-in for decoding a registration body. -/
def decodeRegister (body : String) : Except String api.RegisterRequest :=
  if body = registerBody then
    .ok { Name := "A", Email := "a@x.com", Password := "secret123" }
  else if body = registerNoEmail then
    .ok { Name := "A", Email := "", Password := "secret123" }
  else .error "unexpected end of JSON input"

/-- Stand-in for decoding a login body. -/
def decodeLogin (body : String) : Except String api.LoginRequest :=
  if body = loginA then .ok { Email := "a@x.com", Password := "password" }
  else if body = loginB then .ok { Email := "b@x.com", Password := "password" }
  else if body = loginWrong then .ok { Email := "a@x.com", Password := "wrong" }
  else .error "unexpected end of JSON input"

/-- Stand-in dependencies of the handlers. -/
def deps : api.Deps :=
  { decodeRegister := decodeRegister,
    decodeLogin := decodeLogin,
    GenerateFromPassword := fun password _ => .ok ("hash:" ++ password),
    CompareHashAndPassword := fun _ password =>
      if password = "password" then none
      else some "crypto/bcrypt: hashedPassword is not the hash of the given password",
    quote := fun s => "\"" ++ s ++ "\"",
    formatUnix := fun _ => .ok "\"1970-01-01T00:00:00Z\"" }

/-- Stand-in codec for the handlers: every claim set is encoded under the one name `claims`. -/
def handlerLib : jwt.Lib :=
  { decode := decode,
    signingString := fun alg _ => alg ++ ".claims",
    sign := fun _ signingInput key => .ok (mac signingInput key),
    verify := verify,
    strictExp := true,
    durationString := fun _ => "a while" }

end fixture

/-! ## Contracts assumed of the library -/

/-- Codec contract at one method, claim set and key: whatever the library signs
there, it decodes back to the same algorithm name, claims and signed text, and
the signature verifies under the same key. -/
def jwt.Lib.RoundTrips (lib : jwt.Lib) (method : jwt.SigningMethod)
    (claims : middleware.Claims) (key : String) : Prop :=
  ∀ sig, lib.sign method (lib.signingString method.Alg claims) key = .ok sig →
    lib.decode (lib.signingString method.Alg claims ++ "." ++ sig) =
        .ok { alg := some method.Alg, claims := claims,
              signingInput := lib.signingString method.Alg claims, signature := sig } ∧
      lib.verify method (lib.signingString method.Alg claims) sig key = none

/-- Signing contract: signing with HS256 under a byte-string key does not fail. -/
def jwt.Lib.SignsHS256 (lib : jwt.Lib) : Prop :=
  ∀ signingInput key, ∃ sig,
    lib.sign (jwt.SigningMethod.HMAC "HS256") signingInput key = .ok sig

/-! ## Vocabulary of the gate's contract -/

/-- The header value is the scheme `Bearer`, one space, and a token without a space. -/
def BearerHeader (h tok : String) : Prop :=
  h = "Bearer " ++ tok ∧ Char.ofNat 32 ∉ tok.data

instance (h tok : String) : Decidable (BearerHeader h tok) := by
  unfold BearerHeader
  infer_instance

/-- The gate fails on a request: the `Authorization` header is absent or
empty, or it is not of the `Bearer` form, or `validateToken` returns an error
on the token it carries. -/
def GateFails (lib : jwt.Lib) (env : os.Environ) (clock : Nat → Int) (r : http.Request) : Prop :=
  http.Header.Get r.Header "Authorization" = "" ∨
    (∀ tok, ¬ BearerHeader (http.Header.Get r.Header "Authorization") tok) ∨
    ∃ tok, BearerHeader (http.Header.Get r.Header "Authorization") tok ∧
      (middleware.validateToken lib env clock tok).2 ≠ none

/-- The gate rejects a request because of its token: the header has the
`Bearer` form and `validateToken` returns the error `err` on its token. -/
def TokenRejected (lib : jwt.Lib) (env : os.Environ) (clock : Nat → Int) (r : http.Request)
    (err : String) : Prop :=
  ∃ tok, BearerHeader (http.Header.Get r.Header "Authorization") tok ∧
    (middleware.validateToken lib env clock tok).2 = some err

/-- The message `Authenticate` sends for a header that is not of the `Bearer` form. -/
def formatMessage : String :=
  "Authorization header format must be \x27Bearer \x7btoken\x7d\x27"

/-- The request `Authenticate` hands to `next` for subject `userID`. -/
def identified (r : http.Request) (userID : Int) : http.Request :=
  r.WithContext (context.WithValue r.Context middleware.UserIDKey (.int userID))

/-! ## Lemmas on `strings.Split` -/

namespace strings

theorem splitChars_ne_nil (sep : Char) (l : List Char) : splitChars sep l ≠ [] := by
  cases l with
  | nil => simp [splitChars]
  | cons c cs =>
    unfold splitChars
    split
    · simp
    · split <;> simp

theorem splitChars_single (sep : Char) (l a : List Char) :
    splitChars sep l = [a] ↔ l = a ∧ sep ∉ a := by
  induction l generalizing a with
  | nil =>
    simp only [splitChars]
    constructor
    · intro h; cases h; simp
    · rintro ⟨h, _⟩; subst h; rfl
  | cons c cs ih =>
    unfold splitChars
    by_cases hc : c = sep
    · simp only [hc, if_true]
      constructor
      · intro h
        simp only [List.cons.injEq] at h
        exact absurd h.2 (splitChars_ne_nil sep cs)
      · rintro ⟨h, hn⟩
        subst h
        simp at hn
    · simp only [hc, if_false]
      cases hs : splitChars sep cs with
      | nil => exact absurd hs (splitChars_ne_nil sep cs)
      | cons p ps =>
        simp only [List.cons.injEq]
        constructor
        · rintro ⟨h1, h2⟩
          subst h1 h2
          have := (ih p).1 hs
          refine ⟨by rw [this.1], ?_⟩
          simp only [List.mem_cons, not_or]
          exact ⟨fun h => hc h.symm, this.2⟩
        · rintro ⟨h1, h2⟩
          subst h1
          simp only [List.mem_cons, not_or] at h2
          have := (ih cs).2 ⟨rfl, h2.2⟩
          rw [hs] at this
          simp only [List.cons.injEq] at this
          exact ⟨by rw [this.1], this.2⟩

theorem splitChars_pair (sep : Char) (l a b : List Char) :
    splitChars sep l = [a, b] ↔ l = a ++ sep :: b ∧ sep ∉ a ∧ sep ∉ b := by
  induction l generalizing a with
  | nil =>
    simp [splitChars]
  | cons c cs ih =>
    unfold splitChars
    by_cases hc : c = sep
    · simp only [hc, if_true, List.cons.injEq]
      rw [splitChars_single]
      constructor
      · rintro ⟨h1, h2, h3⟩
        subst h1 h2
        simp [h3]
      · rintro ⟨h1, h2, h3⟩
        cases a with
        | nil =>
          simp only [List.nil_append, List.cons.injEq, true_and] at h1
          exact ⟨rfl, h1, h3⟩
        | cons x xs =>
          simp only [List.cons_append, List.cons.injEq] at h1
          simp only [List.mem_cons, not_or] at h2
          exact absurd h1.1 h2.1
    · simp only [hc, if_false]
      cases hs : splitChars sep cs with
      | nil => exact absurd hs (splitChars_ne_nil sep cs)
      | cons p ps =>
        simp only [List.cons.injEq]
        constructor
        · rintro ⟨h1, h2⟩
          subst h1 h2
          have := (ih p).1 hs
          refine ⟨by rw [this.1]; simp, ?_, this.2.2⟩
          simp only [List.mem_cons, not_or]
          exact ⟨fun h => hc h.symm, this.2.1⟩
        · rintro ⟨h1, h2, h3⟩
          cases a with
          | nil =>
            simp only [List.nil_append, List.cons.injEq] at h1
            exact absurd h1.1 hc
          | cons x xs =>
            simp only [List.cons_append, List.cons.injEq] at h1
            simp only [List.mem_cons, not_or] at h2
            have := (ih xs).2 ⟨h1.2, h2.2, h3⟩
            rw [hs] at this
            simp only [List.cons.injEq] at this
            exact ⟨by rw [h1.1, this.1], this.2⟩

theorem split_pair (s x y : String) (sep : Char) :
    Split s sep = [x, y] ↔ s = x ++ String.singleton sep ++ y ∧ sep ∉ x.data ∧ sep ∉ y.data := by
  unfold Split
  constructor
  · intro h
    cases hs : splitChars sep s.data with
    | nil => exact absurd hs (splitChars_ne_nil sep _)
    | cons a rest =>
      rw [hs] at h
      cases rest with
      | nil => simp at h
      | cons b rest2 =>
        cases rest2 with
        | cons _ _ => simp at h
        | nil =>
          simp only [List.map_cons, List.map_nil, List.cons.injEq, and_true] at h
          obtain ⟨h1, h2⟩ := h
          subst h1 h2
          have := (splitChars_pair sep s.data a b).1 hs
          refine ⟨?_, this.2.1, this.2.2⟩
          apply String.ext
          simp [this.1, String.singleton]
  · rintro ⟨h1, h2, h3⟩
    have : splitChars sep s.data = [x.data, y.data] := by
      rw [splitChars_pair]
      refine ⟨?_, h2, h3⟩
      rw [h1]
      simp [String.singleton]
    rw [this]
    simp


end strings

/-! ## Lemmas on the token codec -/

namespace middleware

theorem validateToken_parse_error (lib : jwt.Lib) (env : os.Environ) (clock : Nat → Int)
    (tokenStr e : String)
    (h : jwt.ParseWithClaims lib (clock 0) tokenStr (keyFunc (secretKey env)) = .error e) :
    validateToken lib env clock tokenStr = (0, some e) := by
  simp [validateToken, h]

theorem parseWithClaims_valid (lib : jwt.Lib) (now : Int) (tokenStr : String)
    (kf : jwt.Token → Except String String) (token : jwt.Token)
    (h : jwt.ParseWithClaims lib now tokenStr kf = .ok token) : token.Valid = true := by
  unfold jwt.ParseWithClaims at h
  split at h
  · exact absurd h (by simp)
  · split at h
    · exact absurd h (by simp)
    · simp only at h
      split at h
      · cases h; rfl
      · exact absurd h (by simp)

theorem validateToken_parse_ok (lib : jwt.Lib) (env : os.Environ) (clock : Nat → Int)
    (tokenStr : String) (token : jwt.Token)
    (h : jwt.ParseWithClaims lib (clock 0) tokenStr (keyFunc (secretKey env)) = .ok token) :
    validateToken lib env clock tokenStr =
      if token.Claims.StandardClaims.ExpiresAt < clock 1 then (0, some "token expired")
      else (token.Claims.UserID, none) := by
  have hv := parseWithClaims_valid lib (clock 0) tokenStr _ token h
  simp [validateToken, h, hv]

theorem getSigningMethod_HS256 :
    jwt.GetSigningMethod "HS256" = some (jwt.SigningMethod.HMAC "HS256") := by
  decide

theorem claims_valid_newClaims (lib : jwt.Lib) (T S : Int) :
    jwt.StandardClaims.Valid lib T (newClaims (fun _ => T) S).StandardClaims =
      { Inner := none, Errors := [] } := by
  have h1 : jwt.VerifyExpiresAt lib (newClaims (fun _ => T) S).StandardClaims T = true := by
    simp only [jwt.VerifyExpiresAt, newClaims]
    split
    · rfl
    · split <;> simp
  have h2 : jwt.VerifyIssuedAt (newClaims (fun _ => T) S).StandardClaims T = true := by
    simp [jwt.VerifyIssuedAt, newClaims]
  have h3 : jwt.VerifyNotBefore (newClaims (fun _ => T) S).StandardClaims T = true := by
    simp [jwt.VerifyNotBefore, newClaims]
  simp [jwt.StandardClaims.Valid, h1, h2, h3]

/-- C1. Round trip of the token codec: when the library's codec round-trips at
the issued claims and the configured key, a token that `GenerateToken` returns
for subject `S` while the clock reads `T` is accepted by `validateToken` at
the same clock reading and the same `JWT_SECRET` setting, with subject `S` and
no error. -/
theorem generateToken_validateToken_roundtrip (lib : jwt.Lib) (env : os.Environ)
    (S T : Int) (t : String)
    (hlib : lib.RoundTrips jwt.SigningMethodHS256 (newClaims (fun _ => T) S) (secretKey env))
    (hgen : GenerateToken lib env (fun _ => T) S = (t, none)) :
    validateToken lib env (fun _ => T) t = (S, none) := by
  unfold GenerateToken jwt.SignedString at hgen
  cases hs : lib.sign jwt.SigningMethodHS256
      (lib.signingString jwt.SigningMethodHS256.Alg (newClaims (fun _ => T) S)) (secretKey env) with
  | error e => simp [hs] at hgen
  | ok sig =>
    simp only [hs, Prod.mk.injEq, and_true] at hgen
    obtain ⟨hdec, hver⟩ := hlib sig hs
    have hparse : jwt.ParseWithClaims lib T t (keyFunc (secretKey env)) =
        .ok { Method := jwt.SigningMethod.HMAC "HS256", alg := "HS256",
              Claims := newClaims (fun _ => T) S, Signature := sig, Valid := true } := by
      have halg : jwt.SigningMethodHS256.Alg = "HS256" := rfl
      rw [halg] at hdec hver hgen
      simp only [jwt.ParseWithClaims, jwt.ParseUnverified, ← hgen, hdec, getSigningMethod_HS256,
        keyFunc, jwt.SigningMethod.isHMAC, if_true, claims_valid_newClaims]
      have hver2 : lib.verify (jwt.SigningMethod.HMAC "HS256")
          (lib.signingString "HS256" (newClaims (fun _ => T) S)) sig (secretKey env) = none := hver
      simp [hver2, jwt.ValidationError.valid, jwt.ValidationError.withSignature]
    rw [validateToken_parse_ok lib env (fun _ => T) t _ hparse]
    have hexp : ¬ (newClaims (fun _ => T) S).StandardClaims.ExpiresAt < T := by
      simp [newClaims]
    simp [hexp, newClaims]

/-- Witness for C1 on the stand-in codec: subject 7 issued and verified at second 1000
with `JWT_SECRET` set. -/
theorem generateToken_validateToken_roundtrip_witness :
    (fixture.lib true).RoundTrips jwt.SigningMethodHS256 (newClaims (fun _ => 1000) 7)
        (secretKey fixture.keyEnv) ∧
      GenerateToken (fixture.lib true) fixture.keyEnv (fun _ => 1000) 7 =
        ("HS256.issued7.k1:HS256issued7", none) ∧
      validateToken (fixture.lib true) fixture.keyEnv (fun _ => 1000)
        "HS256.issued7.k1:HS256issued7" = (7, none) := by
  have hlib : (fixture.lib true).RoundTrips jwt.SigningMethodHS256 (newClaims (fun _ => 1000) 7)
      (secretKey fixture.keyEnv) := by
    intro sig h
    have hs : sig = "k1:HS256issued7" := by
      have h2 : (Except.ok "k1:HS256issued7" : Except String String) = Except.ok sig := by
        rw [← h]; decide
      cases h2; rfl
    subst hs
    decide
  exact ⟨hlib, by decide,
    generateToken_validateToken_roundtrip (fixture.lib true) fixture.keyEnv 7 1000 _ hlib
      (by decide)⟩

theorem parseWithClaims_claims (lib : jwt.Lib) (now : Int) (tokenStr : String)
    (kf : jwt.Token → Except String String) (token : jwt.Token) (seg : jwt.Segments)
    (h : jwt.ParseWithClaims lib now tokenStr kf = .ok token)
    (hdec : lib.decode tokenStr = .ok seg) : token.Claims = seg.claims := by
  unfold jwt.ParseWithClaims jwt.ParseUnverified at h
  rw [hdec] at h
  simp only at h
  cases halg : seg.alg with
  | none => simp [halg] at h
  | some a =>
    simp only [halg] at h
    cases hm : jwt.GetSigningMethod a with
    | none => simp [hm] at h
    | some m =>
      simp only [hm] at h
      split at h
      · exact absurd h (by simp)
      · split at h
        · cases h; rfl
        · exact absurd h (by simp)

theorem validateToken_signed (lib : jwt.Lib) (env : os.Environ) (clock : Nat → Int)
    (tokenStr : String) (seg : jwt.Segments) (a : String) (m : jwt.SigningMethod)
    (hdec : lib.decode tokenStr = .ok seg) (halg : seg.alg = some a)
    (hm : jwt.GetSigningMethod a = some m) (hh : m.isHMAC = true)
    (hsig : lib.verify m seg.signingInput seg.signature (secretKey env) = none)
    (hiat : jwt.VerifyIssuedAt seg.claims.StandardClaims (clock 0) = true)
    (hnbf : jwt.VerifyNotBefore seg.claims.StandardClaims (clock 0) = true) :
    validateToken lib env clock tokenStr =
      if jwt.VerifyExpiresAt lib seg.claims.StandardClaims (clock 0) = true then
        (if seg.claims.StandardClaims.ExpiresAt < clock 1 then (0, some "token expired")
          else (seg.claims.UserID, none))
      else
        (0, some ("token is expired by " ++
          lib.durationString (clock 0 - seg.claims.StandardClaims.ExpiresAt))) := by
  by_cases hexp : jwt.VerifyExpiresAt lib seg.claims.StandardClaims (clock 0) = true
  · have hp : jwt.ParseWithClaims lib (clock 0) tokenStr (keyFunc (secretKey env)) =
        .ok { Method := m, alg := a, Claims := seg.claims, Signature := seg.signature,
              Valid := true } := by
      simp [jwt.ParseWithClaims, jwt.ParseUnverified, hdec, halg, hm, keyFunc, hh, hsig,
        jwt.StandardClaims.Valid, hexp, hiat, hnbf, jwt.ValidationError.withSignature,
        jwt.ValidationError.valid]
    rw [validateToken_parse_ok lib env clock tokenStr _ hp]
    simp [hexp]
  · have hp : jwt.ParseWithClaims lib (clock 0) tokenStr (keyFunc (secretKey env)) =
        .error ("token is expired by " ++
          lib.durationString (clock 0 - seg.claims.StandardClaims.ExpiresAt)) := by
      simp [jwt.ParseWithClaims, jwt.ParseUnverified, hdec, halg, hm, keyFunc, hh, hsig,
        jwt.StandardClaims.Valid, hexp, hiat, hnbf, jwt.ValidationError.withSignature,
        jwt.ValidationError.valid, jwt.ValidationError.Error]
    rw [validateToken_parse_error lib env clock tokenStr _ hp]
    simp [hexp]

theorem verifyExpiresAt_false_iff (lib : jwt.Lib) (c : jwt.StandardClaims) (now : Int) :
    ¬ jwt.VerifyExpiresAt lib c now = true ↔
      c.ExpiresAt ≠ 0 ∧ (now > c.ExpiresAt ∨ (lib.strictExp = true ∧ now = c.ExpiresAt)) := by
  unfold jwt.VerifyExpiresAt
  by_cases h0 : c.ExpiresAt = 0
  · simp [h0]
  · cases hs : lib.strictExp
    · simp [h0]
    · simp only [h0, if_false, if_true, decide_eq_true_eq, ne_eq, not_false_eq_true,
        true_and, and_self, not_lt]
      omega

/-- C2 (as stated, refuted). Two validly signed HMAC tokens whose issued-at is not in
the future are rejected although the clock is not past their expiry. The first
(issued 900, expiring 5000, not-before 2000) is rejected at second 1000 because its
not-before is in the future, under both expiry comparisons of the library. The
second (issued 1000, expiring 87400, no not-before) is rejected at the exact
second 87400 by the library's strict expiry comparison, so a token is not
always accepted at `now == expiresAt`. -/
theorem validateToken_rejects_unexpired_token :
    fixture.decode "HS256.early.k1:HS256early" =
        .ok { alg := some "HS256", claims := fixture.claimsOf 7 5000 900 2000,
              signingInput := "HS256.early", signature := "k1:HS256early" } ∧
      fixture.verify (jwt.SigningMethod.HMAC "HS256") "HS256.early" "k1:HS256early"
        (secretKey fixture.keyEnv) = none ∧
      (fixture.claimsOf 7 5000 900 2000).StandardClaims.IssuedAt ≤ 1000 ∧
      ¬ (1000 > (fixture.claimsOf 7 5000 900 2000).StandardClaims.ExpiresAt) ∧
      validateToken (fixture.lib true) fixture.keyEnv (fixture.still 1000)
        "HS256.early.k1:HS256early" = (0, some "token is not valid yet") ∧
      validateToken (fixture.lib false) fixture.keyEnv (fixture.still 1000)
        "HS256.early.k1:HS256early" = (0, some "token is not valid yet") ∧
      fixture.decode "HS256.issued7.k1:HS256issued7" =
        .ok { alg := some "HS256", claims := fixture.claimsOf 7 87400 1000 0,
              signingInput := "HS256.issued7", signature := "k1:HS256issued7" } ∧
      fixture.verify (jwt.SigningMethod.HMAC "HS256") "HS256.issued7" "k1:HS256issued7"
        (secretKey fixture.keyEnv) = none ∧
      (fixture.claimsOf 7 87400 1000 0).StandardClaims.IssuedAt ≤ 87400 ∧
      ¬ (87400 > (fixture.claimsOf 7 87400 1000 0).StandardClaims.ExpiresAt) ∧
      validateToken (fixture.lib true) fixture.keyEnv (fixture.still 87400)
        "HS256.issued7.k1:HS256issued7" = (0, some "token is expired by a while") := by
  decide

/-- C2 (amended). Take a well-formed token. If the clock reading of the
function's own check is past the token's `ExpiresAt`, the token is rejected
with subject 0, whatever else holds. If moreover the header names an HMAC
method, the signature verifies under the configured key, and issued-at and
not-before are absent or not in the future, then `validateToken` rejects the
token, with subject 0, exactly when the clock is past `ExpiresAt`, or
`ExpiresAt` is present and the library's expiry comparison fails (the library's
reading is past `ExpiresAt`, or equals it under the strict comparison); in
every other case it returns the token's subject with no error. With one clock
value `now` for both readings: rejected exactly when `now > ExpiresAt`, or
`now = ExpiresAt ≠ 0` under the strict comparison. -/
theorem validateToken_expiry (lib : jwt.Lib) (env : os.Environ) (clock : Nat → Int)
    (tokenStr : String) (seg : jwt.Segments) (hdec : lib.decode tokenStr = .ok seg) :
    (clock 1 > seg.claims.StandardClaims.ExpiresAt →
      (validateToken lib env clock tokenStr).1 = 0 ∧
        (validateToken lib env clock tokenStr).2 ≠ none) ∧
    (∀ a m, seg.alg = some a → jwt.GetSigningMethod a = some m → m.isHMAC = true →
      lib.verify m seg.signingInput seg.signature (secretKey env) = none →
      (seg.claims.StandardClaims.IssuedAt = 0 ∨
        seg.claims.StandardClaims.IssuedAt ≤ clock 0) →
      (seg.claims.StandardClaims.NotBefore = 0 ∨
        seg.claims.StandardClaims.NotBefore ≤ clock 0) →
      ((validateToken lib env clock tokenStr).2 ≠ none ↔
          clock 1 > seg.claims.StandardClaims.ExpiresAt ∨
            (seg.claims.StandardClaims.ExpiresAt ≠ 0 ∧
              (clock 0 > seg.claims.StandardClaims.ExpiresAt ∨
                (lib.strictExp = true ∧ clock 0 = seg.claims.StandardClaims.ExpiresAt)))) ∧
        ((validateToken lib env clock tokenStr).2 ≠ none →
          (validateToken lib env clock tokenStr).1 = 0) ∧
        (¬ (clock 1 > seg.claims.StandardClaims.ExpiresAt ∨
            (seg.claims.StandardClaims.ExpiresAt ≠ 0 ∧
              (clock 0 > seg.claims.StandardClaims.ExpiresAt ∨
                (lib.strictExp = true ∧ clock 0 = seg.claims.StandardClaims.ExpiresAt)))) →
          validateToken lib env clock tokenStr = (seg.claims.UserID, none)) ∧
        (clock 0 = clock 1 →
          ((validateToken lib env clock tokenStr).2 ≠ none ↔
            clock 1 > seg.claims.StandardClaims.ExpiresAt ∨
              (lib.strictExp = true ∧ clock 1 = seg.claims.StandardClaims.ExpiresAt ∧
                seg.claims.StandardClaims.ExpiresAt ≠ 0)))) := by
  constructor
  · intro hlt
    cases hp : jwt.ParseWithClaims lib (clock 0) tokenStr (keyFunc (secretKey env)) with
    | error e => simp [validateToken_parse_error lib env clock tokenStr e hp]
    | ok token =>
      have hc := parseWithClaims_claims lib (clock 0) tokenStr _ token seg hp hdec
      have hlt2 : token.Claims.StandardClaims.ExpiresAt < clock 1 := by rw [hc]; exact hlt
      simp [validateToken_parse_ok lib env clock tokenStr token hp, hlt2]
  · intro a m halg hm hh hsig hiat hnbf
    have hiat2 : jwt.VerifyIssuedAt seg.claims.StandardClaims (clock 0) = true := by
      unfold jwt.VerifyIssuedAt
      rcases hiat with h | h
      · simp [h]
      · split
        · rfl
        · simp [h]
    have hnbf2 : jwt.VerifyNotBefore seg.claims.StandardClaims (clock 0) = true := by
      unfold jwt.VerifyNotBefore
      rcases hnbf with h | h
      · simp [h]
      · split
        · rfl
        · simp [h]
    have hv := validateToken_signed lib env clock tokenStr seg a m hdec halg hm hh hsig
      hiat2 hnbf2
    have hx := verifyExpiresAt_false_iff lib seg.claims.StandardClaims (clock 0)
    by_cases hexp : jwt.VerifyExpiresAt lib seg.claims.StandardClaims (clock 0) = true
    · have hnx : ¬ (seg.claims.StandardClaims.ExpiresAt ≠ 0 ∧
          (clock 0 > seg.claims.StandardClaims.ExpiresAt ∨
            (lib.strictExp = true ∧ clock 0 = seg.claims.StandardClaims.ExpiresAt))) :=
        fun h => (hx.2 h) hexp
      by_cases hlt : seg.claims.StandardClaims.ExpiresAt < clock 1
      · have hr : validateToken lib env clock tokenStr = (0, some "token expired") := by
          rw [hv]; simp [hexp, hlt]
        rw [hr]
        refine ⟨?_, fun _ => rfl, ?_, fun _ => ?_⟩
        · exact ⟨fun _ => Or.inl hlt, fun _ => by simp⟩
        · intro hn; exact absurd (Or.inl hlt) hn
        · exact ⟨fun _ => Or.inl hlt, fun _ => by simp⟩
      · have hr : validateToken lib env clock tokenStr = (seg.claims.UserID, none) := by
          rw [hv]; simp [hexp, hlt]
        rw [hr]
        refine ⟨?_, fun h => absurd rfl h, fun _ => rfl, fun h01 => ?_⟩
        · constructor
          · intro h; exact absurd rfl h
          · intro h
            rcases h with h | h
            · exact absurd h hlt
            · exact absurd h hnx
        · constructor
          · intro h; exact absurd rfl h
          · intro h
            rcases h with h | ⟨hs, he, h0⟩
            · exact absurd h hlt
            · exact absurd ⟨h0, Or.inr ⟨hs, by rw [h01]; exact he⟩⟩ hnx
    · have hxx := hx.1 hexp
      have hr : validateToken lib env clock tokenStr =
          (0, some ("token is expired by " ++
            lib.durationString (clock 0 - seg.claims.StandardClaims.ExpiresAt))) := by
        rw [hv]; simp [hexp]
      rw [hr]
      refine ⟨?_, fun _ => rfl, ?_, fun h01 => ?_⟩
      · exact ⟨fun _ => Or.inr hxx, fun _ => by simp⟩
      · intro hn; exact absurd (Or.inr hxx) hn
      · constructor
        · intro _
          rcases hxx with ⟨h0, h | ⟨hs, he⟩⟩
          · left; rw [← h01]; exact h
          · right; exact ⟨hs, by rw [← h01]; exact he, h0⟩
        · intro _; simp

/-- Witness for C2 (amended): on the stand-in codec the token for subject 7
expiring at second 87400 is accepted at second 87399, rejected at second 87401,
and at second 87400 rejected under the strict and accepted under the inclusive
comparison. -/
theorem validateToken_expiry_witness :
    validateToken (fixture.lib true) fixture.keyEnv (fixture.still 87399)
        "HS256.issued7.k1:HS256issued7" = (7, none) ∧
      ((validateToken (fixture.lib true) fixture.keyEnv (fixture.still 87401)
          "HS256.issued7.k1:HS256issued7").1 = 0 ∧
        (validateToken (fixture.lib true) fixture.keyEnv (fixture.still 87401)
          "HS256.issued7.k1:HS256issued7").2 ≠ none) ∧
      (validateToken (fixture.lib true) fixture.keyEnv (fixture.still 87400)
          "HS256.issued7.k1:HS256issued7").2 ≠ none ∧
      validateToken (fixture.lib false) fixture.keyEnv (fixture.still 87400)
        "HS256.issued7.k1:HS256issued7" = (7, none) :=
  ⟨((validateToken_expiry (fixture.lib true) fixture.keyEnv (fixture.still 87399)
      "HS256.issued7.k1:HS256issued7"
      { alg := some "HS256", claims := fixture.claimsOf 7 87400 1000 0,
        signingInput := "HS256.issued7", signature := "k1:HS256issued7" } (by decide)).2
      "HS256" (jwt.SigningMethod.HMAC "HS256") rfl (by decide) rfl (by decide)
      (by decide) (by decide)).2.2.1 (by decide),
   (validateToken_expiry (fixture.lib true) fixture.keyEnv (fixture.still 87401)
      "HS256.issued7.k1:HS256issued7"
      { alg := some "HS256", claims := fixture.claimsOf 7 87400 1000 0,
        signingInput := "HS256.issued7", signature := "k1:HS256issued7" } (by decide)).1
      (by decide),
   ((validateToken_expiry (fixture.lib true) fixture.keyEnv (fixture.still 87400)
      "HS256.issued7.k1:HS256issued7"
      { alg := some "HS256", claims := fixture.claimsOf 7 87400 1000 0,
        signingInput := "HS256.issued7", signature := "k1:HS256issued7" } (by decide)).2
      "HS256" (jwt.SigningMethod.HMAC "HS256") rfl (by decide) rfl (by decide)
      (by decide) (by decide)).1.2 (by decide),
   ((validateToken_expiry (fixture.lib false) fixture.keyEnv (fixture.still 87400)
      "HS256.issued7.k1:HS256issued7"
      { alg := some "HS256", claims := fixture.claimsOf 7 87400 1000 0,
        signingInput := "HS256.issued7", signature := "k1:HS256issued7" } (by decide)).2
      "HS256" (jwt.SigningMethod.HMAC "HS256") rfl (by decide) rfl (by decide)
      (by decide) (by decide)).2.2.1 (by decide)⟩

/-- C3. Algorithm-substitution rejection: a token whose header names an
algorithm that is not a registered HMAC method is rejected with subject 0 and a
non-nil error, whatever its claims, signature and expiry and whatever the clock
reads; when the name is a registered non-HMAC method (`none`, RSA, ECDSA, ...)
the error is the one raised by the key function. -/
theorem validateToken_rejects_non_hmac (lib : jwt.Lib) (env : os.Environ) (clock : Nat → Int)
    (tokenStr : String) (seg : jwt.Segments) (a : String)
    (hdec : lib.decode tokenStr = .ok seg) (halg : seg.alg = some a)
    (hnot : ∀ m, jwt.GetSigningMethod a = some m → m.isHMAC = false) :
    (validateToken lib env clock tokenStr).1 = 0 ∧
      (validateToken lib env clock tokenStr).2 ≠ none ∧
      (∀ m, jwt.GetSigningMethod a = some m →
        validateToken lib env clock tokenStr = (0, some ("unexpected signing method: " ++ a))) := by
  cases hm : jwt.GetSigningMethod a with
  | none =>
    have hp : jwt.ParseWithClaims lib (clock 0) tokenStr (keyFunc (secretKey env)) =
        .error "signing method (alg) is unavailable." := by
      simp [jwt.ParseWithClaims, jwt.ParseUnverified, hdec, halg, hm]
    simp [validateToken_parse_error lib env clock tokenStr _ hp]
  | some m =>
    have hmf := hnot m hm
    have hp : jwt.ParseWithClaims lib (clock 0) tokenStr (keyFunc (secretKey env)) =
        .error ("unexpected signing method: " ++ a) := by
      simp [jwt.ParseWithClaims, jwt.ParseUnverified, hdec, halg, hm, keyFunc, hmf]
    simp [validateToken_parse_error lib env clock tokenStr _ hp]

/-- Witness for C3 on the stand-in codec: an unsigned token naming `none`. -/
theorem validateToken_rejects_non_hmac_witness :
    (validateToken (fixture.lib true) fixture.noEnv (fixture.still 10) "none.noexp.").1 = 0 ∧
      (validateToken (fixture.lib true) fixture.noEnv (fixture.still 10) "none.noexp.").2 ≠ none ∧
      (∀ m, jwt.GetSigningMethod "none" = some m →
        validateToken (fixture.lib true) fixture.noEnv (fixture.still 10) "none.noexp." =
          (0, some ("unexpected signing method: " ++ "none"))) :=
  validateToken_rejects_non_hmac (fixture.lib true) fixture.noEnv (fixture.still 10)
    "none.noexp." { alg := some "none", claims := fixture.claimsOf 7 0 0 0,
                    signingInput := "none.noexp", signature := "" } "none"
    (by decide) rfl (by intro m hm; have h2 : jwt.GetSigningMethod "none" = some jwt.SigningMethod.none := by decide
                        rw [h2] at hm; cases hm; rfl)

/-! ## The authentication gate -/


theorem bearerHeader_of_split (h tok : String)
    (hs : strings.Split h (Char.ofNat 32) = ["Bearer", tok]) : BearerHeader h tok := by
  have := (strings.split_pair h "Bearer" tok (Char.ofNat 32)).1 hs
  refine ⟨?_, this.2.2⟩
  rw [this.1]
  rfl

theorem split_of_bearerHeader (h tok : String) (hb : BearerHeader h tok) :
    strings.Split h (Char.ofNat 32) = ["Bearer", tok] := by
  apply (strings.split_pair h "Bearer" tok (Char.ofNat 32)).2
  refine ⟨?_, by decide, hb.2⟩
  rw [hb.1]
  rfl

theorem bearerHeader_unique (h tok1 tok2 : String) (h1 : BearerHeader h tok1)
    (h2 : BearerHeader h tok2) : tok1 = tok2 := by
  have := h1.1.symm.trans h2.1
  apply String.ext
  have hd := congrArg String.data this
  simpa using hd

theorem bearerHeader_ne_empty (h tok : String) (hb : BearerHeader h tok) : h ≠ "" := by
  intro he
  have := congrArg String.length (hb.1.symm.trans he)
  simp only [String.length_append] at this
  have h7 : "Bearer ".length = 7 := by decide
  have h00 : "".length = 0 := by decide
  omega

/-- The four ways `Authenticate` can go, with the response and the calls of each. -/
theorem authenticate_cases (lib : jwt.Lib) (env : os.Environ) (clock : Nat → Int)
    (next : http.Handler) (w : http.ResponseWriter) (r : http.Request) :
    (http.Header.Get r.Header "Authorization" = "" ∧
        Authenticate lib env clock next w r =
          (http.Error w "Authorization header is required" 401, [])) ∨
      (http.Header.Get r.Header "Authorization" ≠ "" ∧
        (∀ tok, ¬ BearerHeader (http.Header.Get r.Header "Authorization") tok) ∧
        Authenticate lib env clock next w r = (http.Error w formatMessage 401, [])) ∨
      (∃ tok err, BearerHeader (http.Header.Get r.Header "Authorization") tok ∧
        (validateToken lib env clock tok).2 = some err ∧
        Authenticate lib env clock next w r =
          (http.Error w ("Invalid token: " ++ err) 401, [Call.validateToken tok])) ∨
      (∃ tok userID, BearerHeader (http.Header.Get r.Header "Authorization") tok ∧
        validateToken lib env clock tok = (userID, none) ∧
        Authenticate lib env clock next w r =
          (next w (identified r userID),
            [Call.validateToken tok, Call.next (identified r userID)])) := by
  by_cases h0 : http.Header.Get r.Header "Authorization" = ""
  · left
    exact ⟨h0, by simp [Authenticate, h0, http.StatusUnauthorized]⟩
  · right
    unfold Authenticate
    simp only [h0, if_false]
    split
    · rename_i scheme tokenStr hsplit
      by_cases hsch : scheme = "Bearer"
      · subst hsch
        have hb := bearerHeader_of_split _ _ hsplit
        right
        simp only [ne_eq, not_true_eq_false, if_false]
        cases hv : validateToken lib env clock tokenStr with
        | mk userID e =>
          cases e with
          | some err =>
            left
            exact ⟨tokenStr, err, hb, by simp [hv], by simp [http.StatusUnauthorized]⟩
          | none =>
            right
            exact ⟨tokenStr, userID, hb, by simp [hv], by simp [identified]⟩
      · left
        refine ⟨h0, ?_, by simp [hsch, formatMessage, http.StatusUnauthorized]⟩
        intro tok hb
        have := split_of_bearerHeader _ _ hb
        rw [hsplit] at this
        simp only [List.cons.injEq, and_true] at this
        exact hsch this.1
    · rename_i hno
      left
      refine ⟨h0, ?_, by simp [formatMessage, http.StatusUnauthorized]⟩
      intro tok hb
      exact hno _ _ (split_of_bearerHeader _ _ hb)

theorem error_status (w : http.ResponseWriter) (msg : String) (code : Nat)
    (hw : w.status = none) : (http.Error w msg code).status = some code := by
  simp [http.Error, http.ResponseWriter.Write, http.ResponseWriter.WriteHeader,
    http.ResponseWriter.SetHeader, hw]

theorem error_body (w : http.ResponseWriter) (msg : String) (code : Nat) :
    (http.Error w msg code).body = w.body ++ (msg ++ "\n") := by
  simp only [http.Error, http.ResponseWriter.Write, http.ResponseWriter.WriteHeader,
    http.ResponseWriter.SetHeader]
  cases w.status <;> rfl

theorem error_header (w : http.ResponseWriter) (msg : String) (code : Nat) :
    (http.Error w msg code).header =
      http.Header.Set (http.Header.Set w.header "Content-Type" "text/plain; charset=utf-8")
        "X-Content-Type-Options" "nosniff" := by
  simp only [http.Error, http.ResponseWriter.Write, http.ResponseWriter.WriteHeader,
    http.ResponseWriter.SetHeader]
  cases w.status <;> rfl


/-- On a request on which the gate fails, the response is written by
`http.Error` with status 401 and one of the gate's three messages, and the next
handler is not among the calls. -/
theorem authenticate_of_gateFails (lib : jwt.Lib) (env : os.Environ) (clock : Nat → Int)
    (next : http.Handler) (w : http.ResponseWriter) (r : http.Request)
    (hf : GateFails lib env clock r) :
    ∃ msg calls, Authenticate lib env clock next w r = (http.Error w msg 401, calls) ∧
      (∀ r2, Call.next r2 ∉ calls) ∧
      (msg = "Authorization header is required" ∨ msg = formatMessage ∨
        ∃ err, msg = "Invalid token: " ++ err) := by
  rcases authenticate_cases lib env clock next w r with
    ⟨_, ho⟩ | ⟨_, _, ho⟩ | ⟨tok0, err, _, _, ho⟩ | ⟨tok0, S, hb, hv, _⟩
  · exact ⟨_, _, ho, by simp, Or.inl rfl⟩
  · exact ⟨_, _, ho, by simp, Or.inr (Or.inl rfl)⟩
  · exact ⟨_, _, ho, by simp, Or.inr (Or.inr ⟨err, rfl⟩)⟩
  · exfalso
    rcases hf with h0 | hno | ⟨tok, hb2, hne⟩
    · exact bearerHeader_ne_empty _ _ hb h0
    · exact hno tok0 hb
    · rw [bearerHeader_unique _ _ _ hb2 hb, hv] at hne
      exact hne rfl

/-- C4 (as stated, refuted). A header with the scheme and no token, `Bearer `
followed by nothing, is not rejected before `validateToken`: the empty token is
handed to `validateToken`; and a token containing a tab is handed over whole. -/
theorem authenticate_hands_empty_token :
    (Authenticate (fixture.lib true) fixture.noEnv (fixture.still 1000) fixture.okHandler
        fixture.freshWriter (fixture.requestWith "Bearer ")).2 = [Call.validateToken ""] ∧
      (Authenticate (fixture.lib true) fixture.noEnv (fixture.still 1000) fixture.okHandler
        fixture.freshWriter (fixture.requestWith "Bearer a\tb")).2 =
          [Call.validateToken "a\tb"] := by
  decide

/-- C4 (amended). `Authenticate` hands `tok` to `validateToken` exactly when
the `Authorization` header is `Bearer`, one space, and `tok`, where `tok`
contains no space character (it may be empty and may contain other white
space); for every other header value the request is answered by `http.Error`
with status 401 without any call to `validateToken` or to the next handler. -/
theorem authenticate_hands_token_iff (lib : jwt.Lib) (env : os.Environ) (clock : Nat → Int)
    (next : http.Handler) (w : http.ResponseWriter) (r : http.Request) :
    (∀ tok, Call.validateToken tok ∈ (Authenticate lib env clock next w r).2 ↔
        BearerHeader (http.Header.Get r.Header "Authorization") tok) ∧
      ((∀ tok, ¬ BearerHeader (http.Header.Get r.Header "Authorization") tok) →
        (Authenticate lib env clock next w r).2 = [] ∧
          ∃ msg, (Authenticate lib env clock next w r).1 = http.Error w msg 401) := by
  rcases authenticate_cases lib env clock next w r with
    ⟨h0, ho⟩ | ⟨_, hno, ho⟩ | ⟨tok0, err, hb, _, ho⟩ | ⟨tok0, S, hb, _, ho⟩
  · refine ⟨fun tok => ?_, fun _ => ?_⟩
    · rw [ho]
      constructor
      · intro h; simp at h
      · intro hb; exact absurd h0 (bearerHeader_ne_empty _ _ hb)
    · rw [ho]; exact ⟨rfl, _, rfl⟩
  · refine ⟨fun tok => ?_, fun _ => ?_⟩
    · rw [ho]
      constructor
      · intro h; simp at h
      · intro hb; exact absurd hb (hno tok)
    · rw [ho]; exact ⟨rfl, _, rfl⟩
  · refine ⟨fun tok => ?_, fun hno => absurd hb (hno tok0)⟩
    rw [ho]
    constructor
    · intro h
      simp only [List.mem_singleton, Call.validateToken.injEq] at h
      rw [h]; exact hb
    · intro hb2
      rw [bearerHeader_unique _ _ _ hb2 hb]
      simp
  · refine ⟨fun tok => ?_, fun hno => absurd hb (hno tok0)⟩
    rw [ho]
    constructor
    · intro h
      simp only [List.mem_cons, Call.validateToken.injEq, List.mem_singleton, reduceCtorEq,
        or_false, List.not_mem_nil] at h
      rw [h]; exact hb
    · intro hb2
      rw [bearerHeader_unique _ _ _ hb2 hb]
      simp

/-- C5. Fail-closed gate: on every request on which the gate fails (header
absent or empty, header not of the `Bearer` form, or `validateToken` returning an
error) the next handler is not called and the response, written by
`http.Error` on a writer without a status, has status 401. -/
theorem authenticate_fail_closed (lib : jwt.Lib) (env : os.Environ) (clock : Nat → Int)
    (next : http.Handler) (w : http.ResponseWriter) (r : http.Request)
    (hw : w.status = none) (hf : GateFails lib env clock r) :
    (∀ r2, Call.next r2 ∉ (Authenticate lib env clock next w r).2) ∧
      (Authenticate lib env clock next w r).1.status = some 401 ∧
      ∃ msg, (Authenticate lib env clock next w r).1 = http.Error w msg 401 := by
  obtain ⟨msg, calls, ho, hcalls, _⟩ := authenticate_of_gateFails lib env clock next w r hf
  rw [ho]
  exact ⟨hcalls, error_status w _ _ hw, msg, rfl⟩

/-- Witness for C5: a request without an `Authorization` header gets 401 and
the next handler is not called. -/
theorem authenticate_fail_closed_witness :
    fixture.freshWriter.status = none ∧
      GateFails (fixture.lib true) fixture.noEnv (fixture.still 1000) fixture.bareRequest ∧
      (∀ r2, Call.next r2 ∉ (Authenticate (fixture.lib true) fixture.noEnv (fixture.still 1000)
        fixture.okHandler fixture.freshWriter fixture.bareRequest).2) ∧
      (Authenticate (fixture.lib true) fixture.noEnv (fixture.still 1000)
        fixture.okHandler fixture.freshWriter fixture.bareRequest).1.status = some 401 :=
  have hf : GateFails (fixture.lib true) fixture.noEnv (fixture.still 1000)
      fixture.bareRequest := Or.inl (by decide)
  have h := authenticate_fail_closed (fixture.lib true) fixture.noEnv (fixture.still 1000)
    fixture.okHandler fixture.freshWriter fixture.bareRequest rfl hf
  ⟨rfl, hf, h.1, h.2.1⟩

theorem getUserID_identified (r : http.Request) (userID : Int) :
    GetUserID (identified r userID) = (userID, none) := by
  simp [GetUserID, identified, http.Request.WithContext, http.Request.Context,
    context.WithValue, context.Value]

/-- C6. Identity propagation: whenever `Authenticate` calls the next handler
with a request `r2`, the header of the request being served has the `Bearer`
form with a token on which `validateToken` returned a subject `S` and no
error; the calls made are that one validation followed by that one call of the
next handler; `r2` is the served request with `S` stored under `UserIDKey`, and
`GetUserID` on `r2` returns `S` without error. -/
theorem authenticate_identity (lib : jwt.Lib) (env : os.Environ) (clock : Nat → Int)
    (next : http.Handler) (w : http.ResponseWriter) (r r2 : http.Request)
    (hn : Call.next r2 ∈ (Authenticate lib env clock next w r).2) :
    ∃ tok S, BearerHeader (http.Header.Get r.Header "Authorization") tok ∧
      validateToken lib env clock tok = (S, none) ∧
      (Authenticate lib env clock next w r).2 = [Call.validateToken tok, Call.next r2] ∧
      (Authenticate lib env clock next w r).1 = next w r2 ∧
      r2 = identified r S ∧
      GetUserID r2 = (S, none) := by
  rcases authenticate_cases lib env clock next w r with
    ⟨_, ho⟩ | ⟨_, _, ho⟩ | ⟨tok0, err, _, _, ho⟩ | ⟨tok0, S, hb, hv, ho⟩
  · rw [ho] at hn; simp at hn
  · rw [ho] at hn; simp at hn
  · rw [ho] at hn; simp at hn
  · rw [ho] at hn
    simp only [List.mem_cons, reduceCtorEq, Call.next.injEq, List.mem_singleton, false_or,
      List.not_mem_nil, or_false] at hn
    subst hn
    exact ⟨tok0, S, hb, hv, by rw [ho], by rw [ho], rfl, getUserID_identified r S⟩

/-- Witness for C6: a request carrying a token for subject 7 reaches the next
handler once, and the handler's request yields 7. -/
theorem authenticate_identity_witness :
    ∃ tok S, BearerHeader (http.Header.Get
        (fixture.requestWith "Bearer HS256.issued7.k1:HS256issued7").Header "Authorization") tok ∧
      validateToken (fixture.lib true) fixture.keyEnv (fixture.still 1000) tok = (S, none) ∧
      (Authenticate (fixture.lib true) fixture.keyEnv (fixture.still 1000) fixture.okHandler
        fixture.freshWriter (fixture.requestWith "Bearer HS256.issued7.k1:HS256issued7")).2 =
        [Call.validateToken tok, Call.next
          (identified (fixture.requestWith "Bearer HS256.issued7.k1:HS256issued7") 7)] ∧
      (Authenticate (fixture.lib true) fixture.keyEnv (fixture.still 1000) fixture.okHandler
        fixture.freshWriter (fixture.requestWith "Bearer HS256.issued7.k1:HS256issued7")).1 =
        fixture.okHandler fixture.freshWriter
          (identified (fixture.requestWith "Bearer HS256.issued7.k1:HS256issued7") 7) ∧
      identified (fixture.requestWith "Bearer HS256.issued7.k1:HS256issued7") 7 =
        identified (fixture.requestWith "Bearer HS256.issued7.k1:HS256issued7") S ∧
      GetUserID (identified (fixture.requestWith "Bearer HS256.issued7.k1:HS256issued7") 7) =
        (S, none) :=
  authenticate_identity (fixture.lib true) fixture.keyEnv (fixture.still 1000) fixture.okHandler
    fixture.freshWriter (fixture.requestWith "Bearer HS256.issued7.k1:HS256issued7")
    (identified (fixture.requestWith "Bearer HS256.issued7.k1:HS256issued7") 7) (by decide)


/-- C7 (as stated, refuted). Three requests rejected because of their token all get
status 401, but the message text differs with the check that failed: a token
naming the method `none`, a token without expiry refused by the function's own
expiry check, and an expired token refused by the library. -/
theorem authenticate_rejection_text_differs :
    Authenticate (fixture.lib true) fixture.keyEnv (fixture.still 1000) fixture.okHandler
        fixture.freshWriter (fixture.requestWith "Bearer none.old.") =
      ({ header := [("X-Content-Type-Options", ["nosniff"]),
                    ("Content-Type", ["text/plain; charset=utf-8"])],
         status := some 401,
         body := "Invalid token: unexpected signing method: none\n" },
       [Call.validateToken "none.old."]) ∧
    Authenticate (fixture.lib true) fixture.keyEnv (fixture.still 1000) fixture.okHandler
        fixture.freshWriter (fixture.requestWith "Bearer HS256.noexp.k1:HS256noexp") =
      ({ header := [("X-Content-Type-Options", ["nosniff"]),
                    ("Content-Type", ["text/plain; charset=utf-8"])],
         status := some 401,
         body := "Invalid token: token expired\n" },
       [Call.validateToken "HS256.noexp.k1:HS256noexp"]) ∧
    Authenticate (fixture.lib true) fixture.keyEnv (fixture.still 1000) fixture.okHandler
        fixture.freshWriter (fixture.requestWith "Bearer HS256.old.k1:HS256old") =
      ({ header := [("X-Content-Type-Options", ["nosniff"]),
                    ("Content-Type", ["text/plain; charset=utf-8"])],
         status := some 401,
         body := "Invalid token: token is expired by a while\n" },
       [Call.validateToken "HS256.old.k1:HS256old"]) ∧
    "Invalid token: unexpected signing method: none\n" ≠ "Invalid token: token expired\n" ∧
    "Invalid token: unexpected signing method: none\n" ≠
      "Invalid token: token is expired by a while\n" := by
  decide

/-- C7 (amended). Any two requests that the gate rejects because of their
token (malformed, unexpected signing method, signature mismatch or expired:
`validateToken` returned errors `e1` and `e2`) get the same status code 401
and the same response headers; the body of each is `Invalid token: ` followed
by the text of the error that `validateToken` returned and a newline, so the
two bodies agree exactly when the two error texts do. -/
theorem authenticate_rejection_uniform_status (lib : jwt.Lib) (env : os.Environ)
    (clock1 clock2 : Nat → Int) (next : http.Handler) (w : http.ResponseWriter)
    (r1 r2 : http.Request) (e1 e2 : String) (hw : w.status = none)
    (h1 : TokenRejected lib env clock1 r1 e1) (h2 : TokenRejected lib env clock2 r2 e2) :
    (Authenticate lib env clock1 next w r1).1.status = some 401 ∧
      (Authenticate lib env clock2 next w r2).1.status = some 401 ∧
      (Authenticate lib env clock1 next w r1).1.header =
        (Authenticate lib env clock2 next w r2).1.header ∧
      (Authenticate lib env clock1 next w r1).1.body =
        w.body ++ ("Invalid token: " ++ e1 ++ "\n") ∧
      (Authenticate lib env clock2 next w r2).1.body =
        w.body ++ ("Invalid token: " ++ e2 ++ "\n") ∧
      ((Authenticate lib env clock1 next w r1).1.body =
          (Authenticate lib env clock2 next w r2).1.body ↔ e1 = e2) := by
  have key : ∀ (clock : Nat → Int) (r : http.Request) (e : String),
      TokenRejected lib env clock r e →
      (Authenticate lib env clock next w r).1 = http.Error w ("Invalid token: " ++ e) 401 := by
    intro clock r e ⟨tok, hb, hv⟩
    rcases authenticate_cases lib env clock next w r with
      ⟨h0, _⟩ | ⟨_, hno, _⟩ | ⟨tok0, err, hb0, hv0, ho⟩ | ⟨tok0, S, hb0, hv0, _⟩
    · exact absurd h0 (bearerHeader_ne_empty _ _ hb)
    · exact absurd hb (hno tok)
    · rw [bearerHeader_unique _ _ _ hb0 hb, hv] at hv0
      cases hv0
      rw [ho]
    · rw [bearerHeader_unique _ _ _ hb0 hb] at hv0
      rw [hv0] at hv
      simp at hv
  rw [key clock1 r1 e1 h1, key clock2 r2 e2 h2]
  refine ⟨error_status w _ _ hw, error_status w _ _ hw, ?_, error_body w _ _, error_body w _ _, ?_⟩
  · rw [error_header, error_header]
  · rw [error_body, error_body]
    constructor
    · intro h
      have hd := congrArg String.data h
      simp only [String.data_append, List.append_assoc, List.append_cancel_left_eq] at hd
      have hd2 := List.append_cancel_right hd
      exact String.ext hd2
    · intro h; rw [h]

/-- Witness for C7: the token naming `none` and the token without expiry. -/
theorem authenticate_rejection_uniform_status_witness :
    (Authenticate (fixture.lib true) fixture.keyEnv (fixture.still 1000) fixture.okHandler
        fixture.freshWriter (fixture.requestWith "Bearer none.old.")).1.status = some 401 ∧
      (Authenticate (fixture.lib true) fixture.keyEnv (fixture.still 1000) fixture.okHandler
        fixture.freshWriter
        (fixture.requestWith "Bearer HS256.noexp.k1:HS256noexp")).1.status = some 401 :=
  have h := authenticate_rejection_uniform_status (fixture.lib true) fixture.keyEnv
    (fixture.still 1000) (fixture.still 1000) fixture.okHandler fixture.freshWriter
    (fixture.requestWith "Bearer none.old.")
    (fixture.requestWith "Bearer HS256.noexp.k1:HS256noexp")
    "unexpected signing method: none" "token expired" rfl
    ⟨"none.old.", by decide, by decide⟩ ⟨"HS256.noexp.k1:HS256noexp", by decide, by decide⟩
  ⟨h.1, h.2.1⟩


theorem ne_of_head (a b : String) (h : a.data.head? ≠ b.data.head?) : a ≠ b := by
  intro hab
  exact h (by rw [hab])

theorem respondWithError_body (quote : String → String) (w : http.ResponseWriter) (code : Nat)
    (m : String) :
    (api.RespondWithError quote w code m).body =
      w.body ++ ("\x7b\"error\":" ++ quote m ++ "\x7d") := by
  simp only [api.RespondWithError, api.RespondWithJSON, api.marshalErrorResponse,
    http.ResponseWriter.Write, http.ResponseWriter.WriteHeader, http.ResponseWriter.SetHeader]
  cases w.status <;> rfl

theorem respondWithError_head (quote : String → String) (w : http.ResponseWriter) (code : Nat)
    (m : String) (hb : w.body = "") :
    (api.RespondWithError quote w code m).body.data.head? = some (Char.ofNat 123) := by
  rw [respondWithError_body, hb]
  simp only [String.data_append]
  rfl

/-- C8 (as stated, refuted). The response to a request without an `Authorization`
header has status 401, but its body is the plain text written by `http.Error`,
with a plain-text content type; it is not the body `RespondWithError` writes
for any message, under any JSON string encoding. -/
theorem authenticate_rejection_not_json :
    (Authenticate (fixture.lib true) fixture.noEnv (fixture.still 1000) fixture.okHandler
        fixture.freshWriter fixture.bareRequest).1 =
      { header := [("X-Content-Type-Options", ["nosniff"]),
                   ("Content-Type", ["text/plain; charset=utf-8"])],
        status := some 401,
        body := "Authorization header is required\n" } ∧
    ∀ (quote : String → String) (m : String),
      (api.RespondWithError quote fixture.freshWriter 401 m).body ≠
        "Authorization header is required\n" := by
  refine ⟨by decide, fun quote m => ?_⟩
  apply ne_of_head
  rw [respondWithError_head quote fixture.freshWriter 401 m rfl]
  decide

theorem error_contentType (w : http.ResponseWriter) (msg : String) (code : Nat) :
    http.Header.Get (http.Error w msg code).header "Content-Type" =
      "text/plain; charset=utf-8" := by
  rw [error_header]
  simp [http.Header.Set, http.Header.Get, List.filter]

/-- C8 (amended). Every response with which the gate rejects a request has
status 401, content type `text/plain; charset=utf-8`, and as body one of the
gate's three messages followed by a newline: plain text, written by
`http.Error`, and never the JSON object that `RespondWithError` writes. -/
theorem authenticate_rejection_body (lib : jwt.Lib) (env : os.Environ) (clock : Nat → Int)
    (next : http.Handler) (w : http.ResponseWriter) (r : http.Request)
    (hw : w.status = none) (hb : w.body = "") (hf : GateFails lib env clock r) :
    (Authenticate lib env clock next w r).1.status = some 401 ∧
      http.Header.Get (Authenticate lib env clock next w r).1.header "Content-Type" =
        "text/plain; charset=utf-8" ∧
      (∃ msg, (Authenticate lib env clock next w r).1.body = msg ++ "\n" ∧
        (msg = "Authorization header is required" ∨ msg = formatMessage ∨
          ∃ err, msg = "Invalid token: " ++ err)) ∧
      ∀ (quote : String → String) (m : String),
        (api.RespondWithError quote w 401 m).body ≠
          (Authenticate lib env clock next w r).1.body := by
  obtain ⟨msg, calls, ho2, _, hcase⟩ := authenticate_of_gateFails lib env clock next w r hf
  have ho : (Authenticate lib env clock next w r).1 = http.Error w msg 401 := by rw [ho2]
  have hstat : (Authenticate lib env clock next w r).1.status = some 401 := by
    rw [ho]; exact error_status w _ _ hw
  have hbody : (Authenticate lib env clock next w r).1.body = msg ++ "\n" := by
    rw [ho, error_body, hb]
    apply String.ext
    simp
  refine ⟨hstat, by rw [ho]; exact error_contentType w msg 401, ⟨msg, hbody, hcase⟩, ?_⟩
  intro quote m
  apply ne_of_head
  rw [respondWithError_head quote w 401 m hb, hbody]
  rcases hcase with h | h | ⟨err, h⟩
  · subst h; decide
  · subst h; decide
  · subst h
    have hd : ("Invalid token: " ++ err ++ "\n").data.head? = some (Char.ofNat 73) := by
      simp only [String.data_append, List.append_assoc]
      rfl
    rw [hd]
    decide

/-- Witness for C8: the response to a request without an `Authorization` header. -/
theorem authenticate_rejection_body_witness :
    (Authenticate (fixture.lib true) fixture.noEnv (fixture.still 1000) fixture.okHandler
        fixture.freshWriter fixture.bareRequest).1.status = some 401 ∧
      http.Header.Get (Authenticate (fixture.lib true) fixture.noEnv (fixture.still 1000)
        fixture.okHandler fixture.freshWriter fixture.bareRequest).1.header "Content-Type" =
        "text/plain; charset=utf-8" :=
  have h := authenticate_rejection_body (fixture.lib true) fixture.noEnv (fixture.still 1000)
    fixture.okHandler fixture.freshWriter fixture.bareRequest rfl rfl (Or.inl (by decide))
  ⟨h.1, h.2.1⟩

/-- C9 (as stated, refuted). With a clock that advances by one second between the two
readings `GenerateToken` makes (1000, then 1001), the issued token carries
`ExpiresAt = 87400` and `IssuedAt = 1001`, so `ExpiresAt` is not
`IssuedAt + 86400`. -/
theorem generateToken_expiry_not_issued_plus_day :
    GenerateToken (fixture.lib true) fixture.keyEnv (fixture.ticking 1000) 7 =
        ("HS256.ticked7.k1:HS256ticked7", none) ∧
      fixture.decode "HS256.ticked7.k1:HS256ticked7" =
        .ok { alg := some "HS256", claims := fixture.claimsOf 7 87400 1001 0,
              signingInput := "HS256.ticked7", signature := "k1:HS256ticked7" } ∧
      (fixture.claimsOf 7 87400 1001 0).StandardClaims.ExpiresAt ≠
        (fixture.claimsOf 7 87400 1001 0).StandardClaims.IssuedAt + 86400 := by
  decide

/-- C9 (amended). For every subject `S` and every clock, `GenerateToken` signs
with the HMAC method HS256, under the configured key, a claim set with
`user_id = S`, issuer `tennis-tracker`, `ExpiresAt` equal to the first clock
reading plus 86400 seconds and `IssuedAt` equal to the second clock reading,
every other registered claim absent, and returns the signed text, a dot and the
signature (or the signing error); so `ExpiresAt = IssuedAt + 86400` holds
exactly when the two readings fall in the same second. -/
theorem generateToken_claims (lib : jwt.Lib) (env : os.Environ) (clock : Nat → Int) (S : Int) :
    newClaims clock S =
        { UserID := S,
          StandardClaims :=
            { Audience := "", ExpiresAt := clock 0 + 86400, Id := "", IssuedAt := clock 1,
              Issuer := "tennis-tracker", NotBefore := 0, Subject := "" } } ∧
      GenerateToken lib env clock S =
        (match lib.sign (jwt.SigningMethod.HMAC "HS256")
            (lib.signingString "HS256" (newClaims clock S)) (secretKey env) with
          | .ok sig => (lib.signingString "HS256" (newClaims clock S) ++ "." ++ sig, none)
          | .error e => ("", some e)) ∧
      ((newClaims clock S).StandardClaims.ExpiresAt =
          (newClaims clock S).StandardClaims.IssuedAt + 86400 ↔ clock 0 = clock 1) := by
  refine ⟨rfl, ?_, ?_⟩
  · unfold GenerateToken jwt.SignedString
    simp only [jwt.SigningMethodHS256, jwt.SigningMethod.Alg]
    cases lib.sign (jwt.SigningMethod.HMAC "HS256")
      (lib.signingString "HS256" (newClaims clock S)) (secretKey env) <;> rfl
  · simp only [newClaims]
    constructor <;> intro h <;> omega

/-- C10. Identity context accessor: `GetUserID` returns the integer stored
under `UserIDKey` with a nil error when the context holds an `int` there; when
the context holds no value under `UserIDKey`, or a value that is not an `int`, it
returns subject 0 with a non-nil error; a nil error is returned only in the
first case. -/
theorem getUserID_spec (r : http.Request) :
    (∀ n, context.Value r.Context UserIDKey = some (.int n) → GetUserID r = (n, none)) ∧
      ((∀ n, context.Value r.Context UserIDKey ≠ some (.int n)) →
        GetUserID r = (0, some "user ID not found in context")) ∧
      ((GetUserID r).2 = none →
        context.Value r.Context UserIDKey = some (.int (GetUserID r).1)) := by
  unfold GetUserID
  cases hv : context.Value r.Context UserIDKey with
  | none => simp
  | some v =>
    cases v with
    | int n => simp
    | string s => simp
    | contextKey s => simp

end middleware

/-! ## The registration and login handlers -/

namespace api

theorem empty_append (s : String) : "" ++ s = s := by
  apply String.ext
  simp

theorem respondWithJSON_ok (w : http.ResponseWriter) (code : Nat) (response : String)
    (hw : w.status = none) (hb : w.body = "") :
    (RespondWithJSON w code (.ok response)).status = some code ∧
      (RespondWithJSON w code (.ok response)).body = response := by
  constructor
  · simp [RespondWithJSON, http.ResponseWriter.Write, http.ResponseWriter.WriteHeader,
      http.ResponseWriter.SetHeader, hw]
  · simp [RespondWithJSON, http.ResponseWriter.Write, http.ResponseWriter.WriteHeader,
      http.ResponseWriter.SetHeader, hw, hb, empty_append]

theorem respondWithError_ok (quote : String → String) (w : http.ResponseWriter) (code : Nat)
    (message : String) (hw : w.status = none) (hb : w.body = "") :
    (RespondWithError quote w code message).status = some code ∧
      (RespondWithError quote w code message).body =
        "\x7b\"error\":" ++ quote message ++ "\x7d" := by
  unfold RespondWithError marshalErrorResponse
  exact respondWithJSON_ok w code _ hw hb

theorem generateToken_shape (lib : jwt.Lib) (env : os.Environ) (clock : Nat → Int)
    (userID : Int) (token : String)
    (h : middleware.GenerateToken lib env clock userID = (token, none)) :
    ∃ sig, lib.sign (jwt.SigningMethod.HMAC "HS256")
          (lib.signingString "HS256" (middleware.newClaims clock userID))
          (middleware.secretKey env) = .ok sig ∧
      token = lib.signingString "HS256" (middleware.newClaims clock userID) ++ "." ++ sig := by
  unfold middleware.GenerateToken jwt.SignedString at h
  simp only [jwt.SigningMethodHS256, jwt.SigningMethod.Alg] at h
  cases hs : lib.sign (jwt.SigningMethod.HMAC "HS256")
      (lib.signingString "HS256" (middleware.newClaims clock userID))
      (middleware.secretKey env) with
  | error e => simp [hs] at h
  | ok sig =>
    simp only [hs, Prod.mk.injEq, and_true] at h
    exact ⟨sig, rfl, h.symm⟩

theorem token_ne_empty (a sig : String) : a ++ "." ++ sig ≠ "" := by
  intro h
  have hl := congrArg String.length h
  simp only [String.length_append] at hl
  have h1 : ".".length = 1 := by decide
  have h0 : "".length = 0 := by decide
  omega

theorem generateToken_of_signs (lib : jwt.Lib) (env : os.Environ) (clock : Nat → Int)
    (userID : Int) (hsign : lib.SignsHS256) :
    ∃ sig, lib.sign (jwt.SigningMethod.HMAC "HS256")
          (lib.signingString "HS256" (middleware.newClaims clock userID))
          (middleware.secretKey env) = .ok sig ∧
      middleware.GenerateToken lib env clock userID =
        (lib.signingString "HS256" (middleware.newClaims clock userID) ++ "." ++ sig, none) := by
  obtain ⟨sig, hs⟩ := hsign (lib.signingString "HS256" (middleware.newClaims clock userID))
    (middleware.secretKey env)
  refine ⟨sig, hs, ?_⟩
  unfold middleware.GenerateToken jwt.SignedString
  simp only [jwt.SigningMethodHS256, jwt.SigningMethod.Alg, hs]

theorem marshalAuthResponse_zero (d : Deps) (token : String) (userID : Int)
    (name email hash : String) :
    marshalAuthResponse d
        { Token := token,
          User := { ID := userID, Name := name, Email := email, PasswordHash := hash,
                    CreatedAt := time.Time.zero, UpdatedAt := time.Time.zero } } =
      .ok ("\x7b\"token\":" ++ d.quote token ++ ",\"user\":\x7b\"id\":" ++ toString userID ++
        ",\"name\":" ++ d.quote name ++ ",\"email\":" ++ d.quote email ++
        ",\"created_at\":\"0001-01-01T00:00:00Z\",\"updated_at\":\"0001-01-01T00:00:00Z\"\x7d\x7d") := by
  simp only [marshalAuthResponse, marshalUser, marshalTime]
  congr 1
  apply String.ext
  simp only [String.data_append, List.append_assoc]
  rfl

end api

namespace api

theorem authBody_zero (d : Deps) (token name email hash : String) :
    marshalAuthResponse d
        { Token := token,
          User := { ID := 0, Name := name, Email := email, PasswordHash := hash,
                    CreatedAt := time.Time.zero, UpdatedAt := time.Time.zero } } =
      .ok ("\x7b\"token\":" ++ d.quote token ++ ",\"user\":\x7b\"id\":0,\"name\":" ++
        d.quote name ++ ",\"email\":" ++ d.quote email ++
        ",\"created_at\":\"0001-01-01T00:00:00Z\",\"updated_at\":\"0001-01-01T00:00:00Z\"\x7d\x7d") := by
  rw [marshalAuthResponse_zero]
  have h0 : toString (0 : Int) = "0" := by decide
  rw [h0]
  congr 1
  apply String.ext
  simp only [String.data_append, List.append_assoc]
  rfl

theorem authBody_one (d : Deps) (token name email hash : String) :
    marshalAuthResponse d
        { Token := token,
          User := { ID := 1, Name := name, Email := email, PasswordHash := hash,
                    CreatedAt := time.Time.zero, UpdatedAt := time.Time.zero } } =
      .ok ("\x7b\"token\":" ++ d.quote token ++ ",\"user\":\x7b\"id\":1,\"name\":" ++
        d.quote name ++ ",\"email\":" ++ d.quote email ++
        ",\"created_at\":\"0001-01-01T00:00:00Z\",\"updated_at\":\"0001-01-01T00:00:00Z\"\x7d\x7d") := by
  rw [marshalAuthResponse_zero]
  have h1 : toString (1 : Int) = "1" := by decide
  rw [h1]
  congr 1
  apply String.ext
  simp only [String.data_append, List.append_assoc]
  rfl

/-- C11. Registration response, on a writer on which nothing has been written.
When the body decodes to a request with a non-empty email and a non-empty
password, hashing succeeds and `GenerateToken` returns a token, `Register`
answers with status 201 and a JSON object whose `token` member is that token,
which is not empty, and whose `user` member has exactly the members `id`,
`name`, `email`, `created_at`, `updated_at`, with the request's name and email:
the body is determined by the token, the name and the email, and the password
hash occurs nowhere in it. When the decoded request has an empty email or an
empty password, `Register` answers with status 400 and an error object, and
calls neither bcrypt nor `GenerateToken`. -/
theorem register_response (d : Deps) (lib : jwt.Lib) (env : os.Environ) (clock : Nat → Int)
    (w : http.ResponseWriter) (body : String) (hw : w.status = none) (hb : w.body = "") :
    (∀ req hashed token, d.decodeRegister body = .ok req →
        req.Email ≠ "" → req.Password ≠ "" →
        d.GenerateFromPassword req.Password bcrypt.DefaultCost = .ok hashed →
        middleware.GenerateToken lib env clock 0 = (token, none) →
        (Register d lib env clock w body).1.status = some 201 ∧
          token ≠ "" ∧
          (Register d lib env clock w body).1.body =
            "\x7b\"token\":" ++ d.quote token ++ ",\"user\":\x7b\"id\":0,\"name\":" ++
              d.quote req.Name ++ ",\"email\":" ++ d.quote req.Email ++
              ",\"created_at\":\"0001-01-01T00:00:00Z\",\"updated_at\":\"0001-01-01T00:00:00Z\"\x7d\x7d" ∧
          (Register d lib env clock w body).2 =
            [Call.GenerateFromPassword req.Password, Call.GenerateToken 0]) ∧
      (∀ req, d.decodeRegister body = .ok req → (req.Email = "" ∨ req.Password = "") →
        (Register d lib env clock w body).1.status = some 400 ∧
          (Register d lib env clock w body).1.body =
            "\x7b\"error\":" ++ d.quote "Email and password are required" ++ "\x7d" ∧
          (Register d lib env clock w body).2 = []) := by
  constructor
  · intro req hashed token hdec he hp hhash htok
    have hne : ¬ (req.Email = "" ∨ req.Password = "") := by
      intro h
      rcases h with h | h
      · exact he h
      · exact hp h
    obtain ⟨sig, _, ht⟩ := generateToken_shape lib env clock 0 token htok
    have hout : Register d lib env clock w body =
        (RespondWithJSON w http.StatusCreated
          (.ok ("\x7b\"token\":" ++ d.quote token ++ ",\"user\":\x7b\"id\":0,\"name\":" ++
            d.quote req.Name ++ ",\"email\":" ++ d.quote req.Email ++
            ",\"created_at\":\"0001-01-01T00:00:00Z\",\"updated_at\":\"0001-01-01T00:00:00Z\"\x7d\x7d")),
          [Call.GenerateFromPassword req.Password, Call.GenerateToken 0]) := by
      unfold Register
      simp only [hdec, hne, if_false, hhash, htok, authBody_zero]
    rw [hout]
    have hr := respondWithJSON_ok w http.StatusCreated
      ("\x7b\"token\":" ++ d.quote token ++ ",\"user\":\x7b\"id\":0,\"name\":" ++
        d.quote req.Name ++ ",\"email\":" ++ d.quote req.Email ++
        ",\"created_at\":\"0001-01-01T00:00:00Z\",\"updated_at\":\"0001-01-01T00:00:00Z\"\x7d\x7d")
      hw hb
    refine ⟨hr.1, ?_, hr.2, rfl⟩
    rw [ht]
    exact token_ne_empty _ _
  · intro req hdec hempty
    have hout : Register d lib env clock w body =
        (RespondWithError d.quote w http.StatusBadRequest "Email and password are required",
          []) := by
      unfold Register
      simp only [hdec, hempty, if_true]
    rw [hout]
    have hr := respondWithError_ok d.quote w http.StatusBadRequest
      "Email and password are required" hw hb
    exact ⟨hr.1, hr.2, rfl⟩

/-- Witness for C11: the registration example (name `A`, email `a@x.com`,
password `secret123`) is answered with 201 and a token, and a body without an
email with 400 and no call. -/
theorem register_response_witness :
    (Register fixture.deps fixture.handlerLib fixture.noEnv (fixture.still 1000)
        fixture.freshWriter fixture.registerBody).1.status = some 201 ∧
      (Register fixture.deps fixture.handlerLib fixture.noEnv (fixture.still 1000)
        fixture.freshWriter fixture.registerBody).1.body =
        "\x7b\"token\":" ++
          fixture.deps.quote "HS256.claims.your-default-secret-key-for-development:HS256claims" ++
          ",\"user\":\x7b\"id\":0,\"name\":" ++ fixture.deps.quote "A" ++ ",\"email\":" ++
          fixture.deps.quote "a@x.com" ++
          ",\"created_at\":\"0001-01-01T00:00:00Z\",\"updated_at\":\"0001-01-01T00:00:00Z\"\x7d\x7d" ∧
      (Register fixture.deps fixture.handlerLib fixture.noEnv (fixture.still 1000)
        fixture.freshWriter fixture.registerNoEmail).1.status = some 400 ∧
      (Register fixture.deps fixture.handlerLib fixture.noEnv (fixture.still 1000)
        fixture.freshWriter fixture.registerNoEmail).2 = [] :=
  have h1 := (register_response fixture.deps fixture.handlerLib fixture.noEnv
    (fixture.still 1000) fixture.freshWriter fixture.registerBody rfl rfl).1
    { Name := "A", Email := "a@x.com", Password := "secret123" } "hash:secret123"
    "HS256.claims.your-default-secret-key-for-development:HS256claims"
    (by decide) (by decide) (by decide) (by decide) (by decide)
  have h2 := (register_response fixture.deps fixture.handlerLib fixture.noEnv
    (fixture.still 1000) fixture.freshWriter fixture.registerNoEmail rfl rfl).2
    { Name := "A", Email := "", Password := "secret123" } (by decide) (Or.inl rfl)
  ⟨h1.1, h1.2.2.1, h2.1, h2.2.2⟩

end api

namespace api

theorem login_failed (d : Deps) (lib : jwt.Lib) (env : os.Environ) (clock : Nat → Int)
    (w : http.ResponseWriter) (body e p err : String)
    (hd : d.decodeLogin body = .ok { Email := e, Password := p })
    (he : e ≠ "") (hp : p ≠ "") (hc : d.CompareHashAndPassword simulatedHash p = some err) :
    Login d lib env clock w body =
      (RespondWithError d.quote w http.StatusUnauthorized "Invalid email or password",
        [Call.CompareHashAndPassword simulatedHash p]) := by
  have hne : ¬ (e = "" ∨ p = "") := by
    intro h
    rcases h with h | h
    · exact he h
    · exact hp h
  unfold Login
  simp only [hd, hne, if_false, hc]

theorem login_passed (d : Deps) (lib : jwt.Lib) (env : os.Environ) (clock : Nat → Int)
    (w : http.ResponseWriter) (body e p token : String)
    (hd : d.decodeLogin body = .ok { Email := e, Password := p })
    (he : e ≠ "") (hp : p ≠ "") (hc : d.CompareHashAndPassword simulatedHash p = none)
    (ht : middleware.GenerateToken lib env clock 1 = (token, none)) :
    Login d lib env clock w body =
      (RespondWithJSON w http.StatusOK
        (.ok ("\x7b\"token\":" ++ d.quote token ++ ",\"user\":\x7b\"id\":1,\"name\":" ++
          d.quote "Test User" ++ ",\"email\":" ++ d.quote e ++
          ",\"created_at\":\"0001-01-01T00:00:00Z\",\"updated_at\":\"0001-01-01T00:00:00Z\"\x7d\x7d")),
        [Call.CompareHashAndPassword simulatedHash p, Call.GenerateToken 1]) := by
  have hne : ¬ (e = "" ∨ p = "") := by
    intro h
    rcases h with h | h
    · exact he h
    · exact hp h
  unfold Login
  simp only [hd, hne, if_false, hc, ht, authBody_one]

/-- C12. Login does not depend on the email, on a writer on which nothing has
been written. Two login requests with non-empty emails `e1`, `e2` and the same
non-empty password get the same status code, which is 200 or 401 (signing with
HS256 does not fail). When the status is 200, each response carries a token
signed over claims with `user_id = 1` and a user with id 1 and name
`Test User`; the two bodies differ only in the echoed email and in the clock
readings that went into the tokens, and the tokens are equal when the clock
readings are. When the password check fails, both responses have status 401
and the body `{"error":"Invalid email or password"}`. -/
theorem login_email_independent (d : Deps) (lib : jwt.Lib) (env : os.Environ)
    (clock1 clock2 : Nat → Int) (w : http.ResponseWriter) (body1 body2 e1 e2 p : String)
    (hw : w.status = none) (hb : w.body = "") (hsign : lib.SignsHS256)
    (hq : d.quote "Invalid email or password" = "\"Invalid email or password\"")
    (hd1 : d.decodeLogin body1 = .ok { Email := e1, Password := p })
    (hd2 : d.decodeLogin body2 = .ok { Email := e2, Password := p })
    (he1 : e1 ≠ "") (he2 : e2 ≠ "") (hp : p ≠ "") :
    (Login d lib env clock1 w body1).1.status = (Login d lib env clock2 w body2).1.status ∧
      ((Login d lib env clock1 w body1).1.status = some 200 ∨
        (Login d lib env clock1 w body1).1.status = some 401) ∧
      ((Login d lib env clock1 w body1).1.status = some 200 →
        ∃ t1 t2 sig1 sig2,
          middleware.GenerateToken lib env clock1 1 = (t1, none) ∧
          middleware.GenerateToken lib env clock2 1 = (t2, none) ∧
          t1 = lib.signingString "HS256" (middleware.newClaims clock1 1) ++ "." ++ sig1 ∧
          t2 = lib.signingString "HS256" (middleware.newClaims clock2 1) ++ "." ++ sig2 ∧
          (middleware.newClaims clock1 1).UserID = 1 ∧
          (middleware.newClaims clock2 1).UserID = 1 ∧
          (clock1 0 = clock2 0 → clock1 1 = clock2 1 → t1 = t2) ∧
          (Login d lib env clock1 w body1).1.body =
            "\x7b\"token\":" ++ d.quote t1 ++ ",\"user\":\x7b\"id\":1,\"name\":" ++
              d.quote "Test User" ++ ",\"email\":" ++ d.quote e1 ++
              ",\"created_at\":\"0001-01-01T00:00:00Z\",\"updated_at\":\"0001-01-01T00:00:00Z\"\x7d\x7d" ∧
          (Login d lib env clock2 w body2).1.body =
            "\x7b\"token\":" ++ d.quote t2 ++ ",\"user\":\x7b\"id\":1,\"name\":" ++
              d.quote "Test User" ++ ",\"email\":" ++ d.quote e2 ++
              ",\"created_at\":\"0001-01-01T00:00:00Z\",\"updated_at\":\"0001-01-01T00:00:00Z\"\x7d\x7d") ∧
      (d.CompareHashAndPassword simulatedHash p ≠ none →
        (Login d lib env clock1 w body1).1.status = some 401 ∧
          (Login d lib env clock2 w body2).1.status = some 401 ∧
          (Login d lib env clock1 w body1).1.body =
            "\x7b\"error\":\"Invalid email or password\"\x7d" ∧
          (Login d lib env clock2 w body2).1.body =
            "\x7b\"error\":\"Invalid email or password\"\x7d") := by
  have herr := respondWithError_ok d.quote w http.StatusUnauthorized
    "Invalid email or password" hw hb
  rw [hq] at herr
  have hbody : "\x7b\"error\":" ++ "\"Invalid email or password\"" ++ "\x7d" =
      "\x7b\"error\":\"Invalid email or password\"\x7d" := by decide
  rw [hbody] at herr
  cases hc : d.CompareHashAndPassword simulatedHash p with
  | some err =>
    have ho1 := login_failed d lib env clock1 w body1 e1 p err hd1 he1 hp hc
    have ho2 := login_failed d lib env clock2 w body2 e2 p err hd2 he2 hp hc
    rw [ho1, ho2]
    refine ⟨rfl, Or.inr herr.1, ?_, fun _ => ⟨herr.1, herr.1, herr.2, herr.2⟩⟩
    intro h200
    rw [herr.1] at h200
    exact absurd h200 (by decide)
  | none =>
    obtain ⟨sig1, hs1, hg1⟩ := generateToken_of_signs lib env clock1 1 hsign
    obtain ⟨sig2, hs2, hg2⟩ := generateToken_of_signs lib env clock2 1 hsign
    have ho1 := login_passed d lib env clock1 w body1 e1 p _ hd1 he1 hp hc hg1
    have ho2 := login_passed d lib env clock2 w body2 e2 p _ hd2 he2 hp hc hg2
    rw [ho1, ho2]
    have hr1 := respondWithJSON_ok w http.StatusOK
      ("\x7b\"token\":" ++
        d.quote (lib.signingString "HS256" (middleware.newClaims clock1 1) ++ "." ++ sig1) ++
        ",\"user\":\x7b\"id\":1,\"name\":" ++ d.quote "Test User" ++ ",\"email\":" ++ d.quote e1 ++
        ",\"created_at\":\"0001-01-01T00:00:00Z\",\"updated_at\":\"0001-01-01T00:00:00Z\"\x7d\x7d")
      hw hb
    have hr2 := respondWithJSON_ok w http.StatusOK
      ("\x7b\"token\":" ++
        d.quote (lib.signingString "HS256" (middleware.newClaims clock2 1) ++ "." ++ sig2) ++
        ",\"user\":\x7b\"id\":1,\"name\":" ++ d.quote "Test User" ++ ",\"email\":" ++ d.quote e2 ++
        ",\"created_at\":\"0001-01-01T00:00:00Z\",\"updated_at\":\"0001-01-01T00:00:00Z\"\x7d\x7d")
      hw hb
    refine ⟨by rw [hr1.1, hr2.1], Or.inl hr1.1, ?_, fun h => absurd rfl h⟩
    intro _
    refine ⟨_, _, sig1, sig2, hg1, hg2, rfl, rfl, rfl, rfl, ?_, hr1.2, hr2.2⟩
    intro h0 h1
    have hcl : middleware.newClaims clock1 1 = middleware.newClaims clock2 1 := by
      simp only [middleware.newClaims, h0, h1]
    rw [hcl] at hs1
    rw [hs1] at hs2
    cases hs2
    rw [hcl]

/-- Witness for C12: the logins of `a@x.com` and `b@x.com` with the password
`password` both get 200, and a wrong password gets 401 for either clock. -/
theorem login_email_independent_witness :
    (Login fixture.deps fixture.handlerLib fixture.noEnv (fixture.still 1000)
        fixture.freshWriter fixture.loginA).1.status =
      (Login fixture.deps fixture.handlerLib fixture.noEnv (fixture.still 1000)
        fixture.freshWriter fixture.loginB).1.status ∧
      ((Login fixture.deps fixture.handlerLib fixture.noEnv (fixture.still 1000)
          fixture.freshWriter fixture.loginA).1.status = some 200 ∨
        (Login fixture.deps fixture.handlerLib fixture.noEnv (fixture.still 1000)
          fixture.freshWriter fixture.loginA).1.status = some 401) :=
  have h := login_email_independent fixture.deps fixture.handlerLib fixture.noEnv
    (fixture.still 1000) (fixture.still 1000) fixture.freshWriter fixture.loginA fixture.loginB
    "a@x.com" "b@x.com" "password" rfl rfl (fun _ _ => ⟨_, rfl⟩) (by decide)
    (by decide) (by decide) (by decide) (by decide) (by decide)
  ⟨h.1, h.2.1⟩

end api

end TennisTracker
